import Mathlib

/-
Verification of the pale-signal core: the persisted-entry data model with its
validation and storage rules (src/pale_signal/data_store.py) and the analytics
engine (src/pale_signal/analytics.py).

The Python code is shallowly embedded:
* Python values that can appear in an entry dict are modelled by `PyVal`
  (ints, floats, strings, None).  Python floats are modelled by exact
  rationals; the claims under scrutiny only involve values and comparisons
  that are exact in both representations.
* An entry dict is modelled by `Entry`, a record of optional fields (a
  missing field models an absent dict key).
* Fallible Python code (uncaught exceptions) is modelled with `Except` /
  explicit result types: `VRes.err` models a returned `(False, msg)` pair,
  `VRes.exn` models an uncaught exception escaping the function.
* The persisted JSON file is modelled by its payload, a `List Entry`;
  `add_entry` is state passing on that list.
-/

deriving instance DecidableEq for Except

/-- PyVal models the Python values that can occur in an entry record:
integers, floats (as exact rationals), strings and None. -/
inductive PyVal where
  | VInt : ℤ → PyVal
  | VFloat : ℚ → PyVal
  | VStr : String → PyVal
  | VNone : PyVal
deriving DecidableEq

/-- Entry models a Python dict holding a candidate journal entry; each field
is `none` when the corresponding key is absent. -/
structure Entry where
  date : Option PyVal
  sleep_hours : Option PyVal
  focus : Option PyVal
  mood : Option PyVal
  work_hours : Option PyVal
  social : Option PyVal
  timestamp : Option PyVal
deriving DecidableEq

/-- getField models Python dict access `entry[key]` for the schema keys;
`none` models a KeyError. -/
def getField (e : Entry) : String → Option PyVal
  | "date" => e.date
  | "sleep_hours" => e.sleep_hours
  | "focus" => e.focus
  | "mood" => e.mood
  | "work_hours" => e.work_hours
  | "social" => e.social
  | "timestamp" => e.timestamp
  | _ => none

/-- pyEq models Python `==` on the modelled values: numeric values compare by
value across int/float, strings compare as strings, None equals None, and
values of different kinds are unequal. -/
def pyEq : PyVal → PyVal → Bool
  | PyVal.VInt a, PyVal.VInt b => a = b
  | PyVal.VInt a, PyVal.VFloat b => (a : ℚ) = b
  | PyVal.VFloat a, PyVal.VInt b => a = (b : ℚ)
  | PyVal.VFloat a, PyVal.VFloat b => a = b
  | PyVal.VStr a, PyVal.VStr b => a = b
  | PyVal.VNone, PyVal.VNone => true
  | _, _ => false

/-- pyEqO lifts `pyEq` to optional values; a missing value equals nothing.
(The code only ever compares values that are present.) -/
def pyEqO : Option PyVal → Option PyVal → Bool
  | some a, some b => pyEq a b
  | _, _ => false

/- ### Digit-string parsing helpers (model of CPython number/date parsing) -/

/-- digitsToNat folds a list of decimal digit characters into a natural
number; it is only meaningful on digit characters. -/
def digitsToNat (cs : List Char) : ℕ :=
  cs.foldl (fun a c => 10 * a + (c.toNat - ('0').toNat)) 0

/-- allDigits tests that a character list is nonempty and all decimal digits. -/
def allDigits (cs : List Char) : Bool :=
  !cs.isEmpty && cs.all Char.isDigit

/-- splitOnChar splits a character list at every occurrence of the separator,
like Python `str.split(sep)`. -/
def splitOnChar (sep : Char) : List Char → List (List Char)
  | [] => [[]]
  | c :: rest =>
    match splitOnChar sep rest with
    | [] => [[c]]
    | g :: gs => if c = sep then [] :: g :: gs else (c :: g) :: gs

/-- isLeapYear models the Gregorian leap-year rule used by `datetime`. -/
def isLeapYear (y : ℕ) : Bool :=
  (y % 4 = 0 && y % 100 ≠ 0) || (y % 400 = 0)

/-- daysInMonth gives the number of days of month `m` in year `y`,
as `datetime.date` validates it. -/
def daysInMonth (y m : ℕ) : ℕ :=
  if m = 2 then (if isLeapYear y then 29 else 28)
  else if m = 4 || m = 6 || m = 9 || m = 11 then 30
  else 31

/-- ymdOk checks a year/month/day triple for calendar validity, with the
`datetime` year range 1..9999. -/
def ymdOk (y m d : ℕ) : Bool :=
  1 ≤ y && y ≤ 9999 && 1 ≤ m && m ≤ 12 && 1 ≤ d && d ≤ daysInMonth y m

/-- dateOkYMD models `datetime.strptime(s, "%Y-%m-%d")` succeeding: three
dash-separated digit groups (year up to 4 digits, month and day up to 2 — the
directives accept unpadded values) forming a valid calendar date. -/
def dateOkYMD (s : String) : Bool :=
  match splitOnChar '-' s.data with
  | [y, m, d] =>
    allDigits y && y.length ≤ 4 && allDigits m && m.length ≤ 2 &&
    allDigits d && d.length ≤ 2 &&
    ymdOk (digitsToNat y) (digitsToNat m) (digitsToNat d)
  | _ => false

/-- timePartOk models the time component accepted by
`datetime.fromisoformat`: HH, HH:MM, HH:MM:SS, or HH:MM:SS.fff (any nonempty
run of fractional digits); fields are zero-padded to two digits. -/
def timePartOk (cs : List Char) : Bool :=
  match cs with
  | [h1, h2] => allDigits [h1, h2] && digitsToNat [h1, h2] ≤ 23
  | [h1, h2, ':', m1, m2] =>
    allDigits [h1, h2] && digitsToNat [h1, h2] ≤ 23 &&
    allDigits [m1, m2] && digitsToNat [m1, m2] ≤ 59
  | h1 :: h2 :: ':' :: m1 :: m2 :: ':' :: s1 :: s2 :: rest =>
    allDigits [h1, h2] && digitsToNat [h1, h2] ≤ 23 &&
    allDigits [m1, m2] && digitsToNat [m1, m2] ≤ 59 &&
    allDigits [s1, s2] && digitsToNat [s1, s2] ≤ 59 &&
    (match rest with
     | [] => true
     | '.' :: frac => allDigits frac
     | _ => false)
  | _ => false

/-- tsOkISO models `datetime.fromisoformat` succeeding on a string: a strict
zero-padded YYYY-MM-DD calendar date, optionally followed by a T or space
separator and a time part.  (Timezone offsets are outside the modelled
subset; no claim exercises them.) -/
def tsOkISO (s : String) : Bool :=
  match s.data with
  | y1 :: y2 :: y3 :: y4 :: '-' :: m1 :: m2 :: '-' :: d1 :: d2 :: rest =>
    allDigits [y1, y2, y3, y4] && allDigits [m1, m2] && allDigits [d1, d2] &&
    ymdOk (digitsToNat [y1, y2, y3, y4]) (digitsToNat [m1, m2])
      (digitsToNat [d1, d2]) &&
    (match rest with
     | [] => true
     | sep :: t => (sep = 'T' || sep = ' ') && timePartOk t)
  | _ => false

/- ### Numeric coercions: models of Python float(...) and int(...) -/

/-- stripSign splits an optional leading sign from a character list,
returning (negative?, rest). -/
def stripSign : List Char → Bool × List Char
  | '-' :: rest => (true, rest)
  | '+' :: rest => (false, rest)
  | cs => (false, cs)

/-- parseFloatLit models `float(s)` on a decimal literal: optional sign, then
digits with an optional fractional part ("8", "8.", "8.25", ".5").  The
exotic forms (exponents, inf/nan, surrounding whitespace, underscores) are
outside the modelled subset; no claim exercises them. -/
def parseFloatLit (s : String) : Option ℚ :=
  let (neg, body) := stripSign s.data
  let signed : ℤ → ℚ := fun n => if neg then mkRat (-n) 1 else mkRat n 1
  match splitOnChar '.' body with
  | [a] => if allDigits a then some (signed (digitsToNat a)) else none
  | [a, b] =>
    if (a.all Char.isDigit && b.all Char.isDigit && !(a.isEmpty && b.isEmpty))
    then
      let scale : ℕ := 10 ^ b.length
      let total : ℤ := (digitsToNat a) * scale + digitsToNat b
      some (if neg then mkRat (-total) scale else mkRat total scale)
    else none
  | _ => none

/-- parseIntLit models `int(s)`: optional sign then decimal digits. -/
def parseIntLit (s : String) : Option ℤ :=
  let (neg, body) := stripSign s.data
  if allDigits body then
    some (if neg then -(digitsToNat body : ℤ) else (digitsToNat body : ℤ))
  else none

/-- pyTrunc models Python `int(float)`: truncation toward zero. -/
def pyTrunc (q : ℚ) : ℤ := Int.tdiv q.num q.den

/-- pyFloat models the builtin `float(x)` on modelled values; the error
string mirrors the CPython exception message (without its quoting, to keep
the strings plain). -/
def pyFloat : PyVal → Except String ℚ
  | PyVal.VInt n => Except.ok (n : ℚ)
  | PyVal.VFloat q => Except.ok q
  | PyVal.VStr s =>
    match parseFloatLit s with
    | some q => Except.ok q
    | none => Except.error ("could not convert string to float: " ++ s)
  | PyVal.VNone =>
    Except.error "float() argument must be a string or a real number, not NoneType"

/-- pyInt models the builtin `int(x)` on modelled values: ints pass through,
floats truncate toward zero, strings must be integer literals. -/
def pyInt : PyVal → Except String ℤ
  | PyVal.VInt n => Except.ok n
  | PyVal.VFloat q => Except.ok (pyTrunc q)
  | PyVal.VStr s =>
    match parseIntLit s with
    | some n => Except.ok n
    | none => Except.error ("invalid literal for int() with base 10: " ++ s)
  | PyVal.VNone =>
    Except.error "int() argument must be a string, a bytes-like object or a real number, not NoneType"

/- ### validate_entry (data_store.py lines 41-91) -/

/-- VRes is the outcome of a store operation: `ok` models `(True, None)`,
`err msg` models `(False, msg)`, and `exn msg` models an uncaught exception
escaping the function. -/
inductive VRes where
  | ok : VRes
  | err : String → VRes
  | exn : String → VRes
deriving DecidableEq

/-- requiredFields is the `required_fields` list of data_store.py line 46,
in source order. -/
def requiredFields : List String :=
  ["date", "sleep_hours", "focus", "mood", "work_hours", "social", "timestamp"]

/-- validSocial is the `valid_social` list of data_store.py line 84. -/
def validSocial : List String := ["none", "online", "casual", "meaningful", "deep"]

/-- socialMsg is the error text built on data_store.py line 86. -/
def socialMsg : String :=
  "social must be one of: none, online, casual, meaningful, deep"

/-- socialContains models `entry["social"] in valid_social`: only an equal
string matches. -/
def socialContains : PyVal → Bool
  | PyVal.VStr s => validSocial.contains s
  | _ => false

/-- tsGoodB models the timestamp try-block of data_store.py lines 60-63:
`datetime.fromisoformat` succeeds only on a well-formed string; a non-string
raises TypeError, which that block also catches. -/
def tsGoodB (e : Entry) : Bool :=
  match getField e "timestamp" with
  | some (PyVal.VStr t) => tsOkISO t
  | _ => false

/-- validate_entry models data_store.validate_entry (lines 41-91): presence
of the seven required fields, then date format via strptime (line 55 — a
non-string date raises an uncaught TypeError, modelled by `VRes.exn`), then
timestamp format, then the coerce-and-range checks inside the try-block in
source order, then the social category check. -/
def validate_entry (e : Entry) : VRes :=
  match requiredFields.find? (fun f => (getField e f).isNone) with
  | some f => VRes.err ("Missing required field: " ++ f)
  | none =>
    match getField e "date" with
    | none => VRes.err "Missing required field: date"
    | some (PyVal.VInt _) => VRes.exn "strptime() argument 1 must be str"
    | some (PyVal.VFloat _) => VRes.exn "strptime() argument 1 must be str"
    | some PyVal.VNone => VRes.exn "strptime() argument 1 must be str"
    | some (PyVal.VStr d) =>
      if !dateOkYMD d then VRes.err "Date must be in YYYY-MM-DD format"
      else if !tsGoodB e then VRes.err "Timestamp must be in ISO format"
      else
        match getField e "sleep_hours" with
        | none => VRes.err "Missing required field: sleep_hours"
        | some sleepv =>
          match pyFloat sleepv with
          | Except.error m => VRes.err ("Invalid data type: " ++ m)
          | Except.ok sleep_hours =>
            if sleep_hours < 0 || 24 < sleep_hours then
              VRes.err "sleep_hours must be between 0 and 24"
            else
              match getField e "focus" with
              | none => VRes.err "Missing required field: focus"
              | some focusv =>
                match pyInt focusv with
                | Except.error m => VRes.err ("Invalid data type: " ++ m)
                | Except.ok focus =>
                  if focus < 1 || 10 < focus then
                    VRes.err "focus must be between 1 and 10"
                  else
                    match getField e "mood" with
                    | none => VRes.err "Missing required field: mood"
                    | some moodv =>
                      match pyInt moodv with
                      | Except.error m => VRes.err ("Invalid data type: " ++ m)
                      | Except.ok mood =>
                        if mood < 1 || 10 < mood then
                          VRes.err "mood must be between 1 and 10"
                        else
                          match getField e "work_hours" with
                          | none => VRes.err "Missing required field: work_hours"
                          | some workv =>
                            match pyFloat workv with
                            | Except.error m => VRes.err ("Invalid data type: " ++ m)
                            | Except.ok work_hours =>
                              if work_hours < 0 || 24 < work_hours then
                                VRes.err "work_hours must be between 0 and 24"
                              else
                                match getField e "social" with
                                | none => VRes.err "Missing required field: social"
                                | some socialv =>
                                  if !socialContains socialv then VRes.err socialMsg
                                  else VRes.ok

/- ### The entry store (data_store.py lines 94-143) -/

/-- dateStr extracts the date string of an entry; entries that reach the
store have passed validation, so their date is always a string. -/
def dateStr (e : Entry) : String :=
  match e.date with
  | some (PyVal.VStr s) => s
  | _ => ""

/-- strLtB is lexicographic comparison of character lists by code point —
exactly Python string `<`, which `list.sort` uses on the date keys. -/
def strLtB : List Char → List Char → Bool
  | [], [] => false
  | [], _ :: _ => true
  | _ :: _, [] => false
  | a :: as, b :: bs => if a < b then true else if b < a then false else strLtB as bs

/-- descLe says entry `x` may precede entry `y` in the descending order:
the date of `y` is not greater than the date of `x`. -/
def descLe (x y : Entry) : Bool := !strLtB (dateStr x).data (dateStr y).data

/-- insertDesc inserts an entry into a descending-sorted list, before the
first element it is allowed to precede (ties keep the inserted element
first, matching the stability of Python `list.sort`). -/
def insertDesc (x : Entry) : List Entry → List Entry
  | [] => [x]
  | y :: ys => if descLe x y then x :: y :: ys else y :: insertDesc x ys

/-- sortDesc models `entries.sort(key=lambda x: x["date"], reverse=True)` of
data_store.py line 116: a stable sort, descending by date string. -/
def sortDesc : List Entry → List Entry
  | [] => []
  | x :: xs => insertDesc x (sortDesc xs)

/-- hasDupDate models the duplicate-date scan of data_store.py lines 108-110. -/
def hasDupDate (store : List Entry) (e : Entry) : Bool :=
  store.any (fun x => pyEqO x.date e.date)

/-- dupMsg is the message `f"Entry for {entry['date']} already exists"` of
line 110 (the date of a validated entry is a string). -/
def dupMsg (e : Entry) : String := "Entry for " ++ dateStr e ++ " already exists"

/-- add_entry models data_store.add_entry (lines 94-119) as a function of the
persisted collection: validate, reject duplicates, append, re-sort
descending by date, persist.  The returned list is the new persisted
collection (unchanged on failure, since the code returns before saving). -/
def add_entry (store : List Entry) (e : Entry) : VRes × List Entry :=
  match validate_entry e with
  | VRes.err m => (VRes.err m, store)
  | VRes.exn m => (VRes.exn m, store)
  | VRes.ok =>
    if hasDupDate store e then (VRes.err (dupMsg e), store)
    else (VRes.ok, sortDesc (store ++ [e]))

/-- get_entries models data_store.get_entries (lines 122-133): an optional
positive limit takes that many entries from the front, otherwise the whole
collection is returned. -/
def get_entries (store : List Entry) (days : Option ℤ) : List Entry :=
  match days with
  | some d => if 0 < d then store.take d.toNat else store
  | none => store

/-- Reachable is the set of persisted collections obtainable from the empty
store (the lifecycle start) by successful add_entry calls. -/
inductive Reachable : List Entry → Prop
  | nil : Reachable []
  | step (s : List Entry) (e : Entry) (s2 : List Entry) :
      Reachable s → add_entry s e = (VRes.ok, s2) → Reachable s2

/- ### The analytics engine (analytics.py) -/

/-- pyNum? extracts the numeric value of a modelled Python int or float;
strings and None are not numbers. -/
def pyNum? : PyVal → Option ℚ
  | PyVal.VInt n => some (n : ℚ)
  | PyVal.VFloat q => some q
  | _ => none

/-- getVals models the comprehension `[entry[metric] for entry in entries]`
(analytics.py line 15): a missing key raises KeyError. -/
def getVals (m : String) : List Entry → Except String (List PyVal)
  | [] => Except.ok []
  | e :: rest =>
    match getField e m with
    | none => Except.error ("KeyError: " ++ m)
    | some v =>
      match getVals m rest with
      | Except.error msg => Except.error msg
      | Except.ok vs => Except.ok (v :: vs)

/-- allNums converts a list of modelled values to rationals, failing on the
first non-numeric value, as `statistics.mean` does. -/
def allNums : List PyVal → Option (List ℚ)
  | [] => some []
  | v :: vs =>
    match pyNum? v with
    | none => none
    | some q =>
      match allNums vs with
      | none => none
      | some qs => some (q :: qs)

/-- qmean is the exact arithmetic mean of a list of rationals. -/
def qmean (l : List ℚ) : ℚ := l.sum / (l.length : ℚ)

/-- statMean models `statistics.mean(values)`: non-numeric values raise
TypeError, numeric input yields the exact mean. -/
def statMean (vs : List PyVal) : Except String ℚ :=
  match allNums vs with
  | none => Except.error "TypeError: can not convert type to numerator/denominator"
  | some qs => Except.ok (qmean qs)

/-- calculate_average models analytics.calculate_average (lines 10-16):
0.0 on empty input, otherwise the mean of the raw metric values. -/
def calculate_average (entries : List Entry) (metric : String) : Except String ℚ :=
  if entries = [] then Except.ok 0
  else
    match getVals metric entries with
    | Except.error m => Except.error m
    | Except.ok vs => statMean vs

/-- calculate_rolling_average models analytics.calculate_rolling_average
(lines 19-25): the average over the first `window` entries. -/
def calculate_rolling_average (entries : List Entry) (metric : String)
    (window : ℕ) : Except String ℚ :=
  if entries = [] then Except.ok 0
  else calculate_average (entries.take window) metric

/-- floatVals models the comprehension
`[float(entry[metric]) for entry in entries]` (analytics.py lines 36-37). -/
def floatVals (m : String) : List Entry → Except String (List ℚ)
  | [] => Except.ok []
  | e :: rest =>
    match getField e m with
    | none => Except.error ("KeyError: " ++ m)
    | some v =>
      match pyFloat v with
      | Except.error msg => Except.error msg
      | Except.ok q =>
        match floatVals m rest with
        | Except.error msg => Except.error msg
        | Except.ok qs => Except.ok (q :: qs)

open Classical in
/-- corrOfVals is the Pearson formula of analytics.py lines 40-54 on two
extracted value lists: means, covariance numerator, the two sums of squared
deviations, the square-root denominator, and the zero-denominator guard. -/
noncomputable def corrOfVals (v1 v2 : List ℚ) : ℝ :=
  let mean1 := qmean v1
  let mean2 := qmean v2
  let numerator : ℚ :=
    ((v1.zip v2).map (fun p => (p.1 - mean1) * (p.2 - mean2))).sum
  let sum_sq1 : ℚ := (v1.map (fun v => (v - mean1) ^ 2)).sum
  let sum_sq2 : ℚ := (v2.map (fun v => (v - mean2) ^ 2)).sum
  let denominator : ℝ := Real.sqrt ((sum_sq1 * sum_sq2 : ℚ) : ℝ)
  if denominator = 0 then 0 else ((numerator : ℚ) : ℝ) / denominator

/-- calculate_correlation models analytics.calculate_correlation
(lines 28-54): 0.0 for fewer than 2 entries, otherwise the two float
coercions followed by the pure Pearson formula. -/
noncomputable def calculate_correlation (entries : List Entry)
    (metric1 metric2 : String) : Except String ℝ :=
  if entries.length < 2 then Except.ok 0
  else
    match floatVals metric1 entries with
    | Except.error m => Except.error m
    | Except.ok v1 =>
      match floatVals metric2 entries with
      | Except.error m => Except.error m
      | Except.ok v2 => Except.ok (corrOfVals v1 v2)

/-- countLt models `sum(1 for e in entries if e[m] < bound)`: a missing key
raises KeyError and a non-numeric value raises TypeError on `<`. -/
def countLt (m : String) (bound : ℚ) : List Entry → Except String ℕ
  | [] => Except.ok 0
  | e :: rest =>
    match getField e m with
    | none => Except.error ("KeyError: " ++ m)
    | some v =>
      match pyNum? v with
      | none => Except.error "TypeError: comparison not supported between str and int"
      | some q =>
        match countLt m bound rest with
        | Except.error msg => Except.error msg
        | Except.ok c => Except.ok (if q < bound then c + 1 else c)

/-- countGt is the analogous count with `e[m] > bound`. -/
def countGt (m : String) (bound : ℚ) : List Entry → Except String ℕ
  | [] => Except.ok 0
  | e :: rest =>
    match getField e m with
    | none => Except.error ("KeyError: " ++ m)
    | some v =>
      match pyNum? v with
      | none => Except.error "TypeError: comparison not supported between str and int"
      | some q =>
        match countGt m bound rest with
        | Except.error msg => Except.error msg
        | Except.ok c => Except.ok (if bound < q then c + 1 else c)

/-- round1 is round-half-even of `10 * q` (the rounding of Python `"%.1f"`
formatting, exact on our rational model), computed with integer arithmetic. -/
def round1 (q : ℚ) : ℤ :=
  let f := Int.fdiv (q.num * 10) (q.den : ℤ)
  let t := 2 * (q.num * 10 - f * (q.den : ℤ))
  if t < (q.den : ℤ) then f
  else if (q.den : ℤ) < t then f + 1
  else if f % 2 = 0 then f else f + 1

/-- fmt1 models Python `f"{x:.1f}"` on our exact rationals: one fractional
digit, round-half-even. -/
def fmt1 (q : ℚ) : String :=
  let n := round1 q
  let a := n.natAbs
  (if n < 0 then "-" else "") ++ toString (a / 10) ++ "." ++ toString (a % 10)

/-- pctOf is the percentage `(count / total) * 100` of analytics.py. -/
def pctOf (c n : ℕ) : ℚ := ((c : ℚ) / (n : ℚ)) * 100

/-- sleepFlagMsg is the warning string of analytics.py line 71. -/
def sleepFlagMsg (c n : ℕ) : String :=
  "WARNING: Low sleep (<6h): " ++ toString c ++ "/" ++ toString n ++
    " days (" ++ fmt1 (pctOf c n) ++ "%)"

/-- focusFlagMsg is the warning string of analytics.py line 77. -/
def focusFlagMsg (c n : ℕ) : String :=
  "WARNING: Low focus (<4): " ++ toString c ++ "/" ++ toString n ++
    " days (" ++ fmt1 (pctOf c n) ++ "%)"

/-- moodFlagMsg is the warning string of analytics.py line 83. -/
def moodFlagMsg (c n : ℕ) : String :=
  "WARNING: Low mood (<4): " ++ toString c ++ "/" ++ toString n ++
    " days (" ++ fmt1 (pctOf c n) ++ "%)"

/-- workFlagMsg is the warning string of analytics.py line 89. -/
def workFlagMsg (c n : ℕ) : String :=
  "WARNING: Long work days (>10h): " ++ toString c ++ "/" ++ toString n ++
    " days (" ++ fmt1 (pctOf c n) ++ "%)"

/-- identify_flags models analytics.identify_flags (lines 57-91): empty
input yields no flags, otherwise the four threshold counts are computed in
source order and each non-zero count appends its warning string. -/
def identify_flags (entries : List Entry) : Except String (List String) :=
  if entries = [] then Except.ok []
  else
    let n := entries.length
    match countLt "sleep_hours" 6 entries with
    | Except.error m => Except.error m
    | Except.ok c1 =>
      match countLt "focus" 4 entries with
      | Except.error m => Except.error m
      | Except.ok c2 =>
        match countLt "mood" 4 entries with
        | Except.error m => Except.error m
        | Except.ok c3 =>
          match countGt "work_hours" 10 entries with
          | Except.error m => Except.error m
          | Except.ok c4 =>
            Except.ok
              ((if 0 < c1 then [sleepFlagMsg c1 n] else []) ++
               (if 0 < c2 then [focusFlagMsg c2 n] else []) ++
               (if 0 < c3 then [moodFlagMsg c3 n] else []) ++
               (if 0 < c4 then [workFlagMsg c4 n] else []))

/-- analyticsMetrics is the `metrics` list of analytics.py line 103
(social excluded as categorical). -/
def analyticsMetrics : List String := ["sleep_hours", "focus", "mood", "work_hours"]

/-- pairsOf models the nested enumeration loops of analytics.py
lines 106-107: all unordered pairs, in enumeration order. -/
def pairsOf : List String → List (String × String)
  | [] => []
  | x :: xs => xs.map (fun y => (x, y)) ++ pairsOf xs

/-- corrList computes the (metric1, metric2, correlation) triples of
analytics.py lines 106-109 in enumeration order. -/
noncomputable def corrList (entries : List Entry) :
    List (String × String) → Except String (List (String × String × ℝ))
  | [] => Except.ok []
  | p :: rest =>
    match calculate_correlation entries p.1 p.2 with
    | Except.error m => Except.error m
    | Except.ok c =>
      match corrList entries rest with
      | Except.error m => Except.error m
      | Except.ok l => Except.ok ((p.1, p.2, c) :: l)

/-- akey is the sort key `abs(x[2])` of analytics.py line 112. -/
noncomputable def akey (t : String × String × ℝ) : ℝ := |t.2.2|

open Classical in
/-- insertCorrDesc inserts a triple into a list sorted descending by
absolute correlation, before the first element whose key it is not below
(ties keep the inserted, originally earlier, element first — the stability
of Python `list.sort`). -/
noncomputable def insertCorrDesc (x : String × String × ℝ) :
    List (String × String × ℝ) → List (String × String × ℝ)
  | [] => [x]
  | y :: ys => if akey y ≤ akey x then x :: y :: ys else y :: insertCorrDesc x ys

/-- sortCorrDesc models `correlations.sort(key=lambda x: abs(x[2]),
reverse=True)` of analytics.py line 112: stable, descending by `akey`. -/
noncomputable def sortCorrDesc :
    List (String × String × ℝ) → List (String × String × ℝ)
  | [] => []
  | x :: xs => insertCorrDesc x (sortCorrDesc xs)

/-- get_top_correlations models analytics.get_top_correlations
(lines 94-114). -/
noncomputable def get_top_correlations (entries : List Entry) :
    Except String (List (String × String × ℝ)) :=
  if entries.length < 2 then Except.ok []
  else
    match corrList entries (pairsOf analyticsMetrics) with
    | Except.error m => Except.error m
    | Except.ok l => Except.ok (sortCorrDesc l)

/- ### generate_summary (analytics.py lines 117-179) -/

/-- padRight pads a string on the right with spaces to the given width,
modelling Python `f"{s:12s}"`. -/
def padRight (s : String) (w : ℕ) : String :=
  s ++ String.mk (List.replicate (w - s.length) ' ')

/-- socialValOf models `e.get("social", "none")`. -/
def socialValOf (e : Entry) : PyVal :=
  match e.social with
  | some v => v
  | none => PyVal.VStr "none"

/-- socialCount counts the entries whose social value equals the given
category string under Python equality (the dict lookup of line 146). -/
def socialCount (entries : List Entry) (cat : String) : ℕ :=
  entries.countP (fun e => pyEq (socialValOf e) (PyVal.VStr cat))

/-- socialLine is the per-category line of analytics.py line 149. -/
def socialLine (cat : String) (c n : ℕ) : String :=
  "    " ++ padRight cat 12 ++ " - " ++ toString c ++ "/" ++ toString n ++
    " days (" ++ fmt1 (pctOf c n) ++ "%)"

/-- socialLines builds the social-breakdown lines of analytics.py
lines 144-149: the five categories in fixed order, zero counts omitted. -/
def socialLines (entries : List Entry) : List String :=
  "  Social:" ::
    (validSocial.filterMap (fun cat =>
      let c := socialCount entries cat
      if 0 < c then some (socialLine cat c entries.length) else none))

open Classical in
/-- round2R is round-half-even of `100 * r` for the correlation formatting
`f"{corr:+.2f}"` of analytics.py line 168. -/
noncomputable def round2R (r : ℝ) : ℤ :=
  let f := ⌊r * 100⌋
  let rem := r * 100 - (f : ℝ)
  if rem < 1 / 2 then f
  else if 1 / 2 < rem then f + 1
  else if f % 2 = 0 then f else f + 1

open Classical in
/-- fmt2Signed models Python `f"{x:+.2f}"`: explicit sign and two
fractional digits. -/
noncomputable def fmt2Signed (r : ℝ) : String :=
  let n := round2R r
  let a := n.natAbs
  (if r < 0 then "-" else "+") ++ toString (a / 100) ++ "." ++
    (if a % 100 < 10 then "0" else "") ++ toString (a % 100)

open Classical in
/-- strengthLabel is the qualitative label of analytics.py line 166. -/
noncomputable def strengthLabel (r : ℝ) : String :=
  if (0.7 : ℝ) < |r| then "strong"
  else if (0.4 : ℝ) < |r| then "moderate" else "weak"

open Classical in
/-- directionLabel is the direction label of analytics.py line 167. -/
noncomputable def directionLabel (r : ℝ) : String :=
  if 0 < r then "positive" else "negative"

/-- corrLine is the correlation line of analytics.py line 168. -/
noncomputable def corrLine (t : String × String × ℝ) : String :=
  "  " ++ t.1 ++ " <-> " ++ t.2.1 ++ ": " ++ fmt2Signed t.2.2 ++ " (" ++
    strengthLabel t.2.2 ++ " " ++ directionLabel t.2.2 ++ ")"

/-- generate_summary models analytics.generate_summary (lines 117-179):
the fixed placeholder on empty input, otherwise the assembled report
(header, averages with social breakdown, conditional 7-day rolling
averages, top-3 correlations, flags), joined with newlines. -/
noncomputable def generate_summary (entries : List Entry) (days : ℤ) :
    Except String String :=
  if entries = [] then Except.ok "No data available."
  else
    let actual := entries.length
    match calculate_average entries "sleep_hours" with
    | Except.error m => Except.error m
    | Except.ok avgSleep =>
    match calculate_average entries "focus" with
    | Except.error m => Except.error m
    | Except.ok avgFocus =>
    match calculate_average entries "mood" with
    | Except.error m => Except.error m
    | Except.ok avgMood =>
    match calculate_average entries "work_hours" with
    | Except.error m => Except.error m
    | Except.ok avgWork =>
    let headLines : List String :=
      ["Summary for last " ++ toString days ++ " days (" ++ toString actual ++
        " entries)", String.mk (List.replicate 60 '='), "",
       "AVERAGES:",
       "  Sleep:     " ++ fmt1 avgSleep ++ " hours",
       "  Focus:     " ++ fmt1 avgFocus ++ " / 10",
       "  Mood:      " ++ fmt1 avgMood ++ " / 10",
       "  Work:      " ++ fmt1 avgWork ++ " hours"]
    let rollRes : Except String (List String) :=
      if 7 ≤ actual then
        match calculate_rolling_average entries "sleep_hours" 7 with
        | Except.error m => Except.error m
        | Except.ok r1 =>
        match calculate_rolling_average entries "focus" 7 with
        | Except.error m => Except.error m
        | Except.ok r2 =>
        match calculate_rolling_average entries "mood" 7 with
        | Except.error m => Except.error m
        | Except.ok r3 =>
        match calculate_rolling_average entries "work_hours" 7 with
        | Except.error m => Except.error m
        | Except.ok r4 =>
          Except.ok ["7-DAY ROLLING AVERAGES:",
            "  Sleep:     " ++ fmt1 r1 ++ " hours",
            "  Focus:     " ++ fmt1 r2 ++ " / 10",
            "  Mood:      " ++ fmt1 r3 ++ " / 10",
            "  Work:      " ++ fmt1 r4 ++ " hours", ""]
      else Except.ok []
    match rollRes with
    | Except.error m => Except.error m
    | Except.ok rollingLines =>
    match get_top_correlations entries with
    | Except.error m => Except.error m
    | Except.ok correlations =>
    let corrLines : List String :=
      if correlations = [] then []
      else "TOP CORRELATIONS:" :: (correlations.take 3).map corrLine ++ [""]
    match identify_flags entries with
    | Except.error m => Except.error m
    | Except.ok flags =>
    let flagLines : List String :=
      if flags = [] then []
      else "FLAGS:" :: flags.map (fun f => "  " ++ f) ++ [""]
    Except.ok (String.intercalate "\n"
      (headLines ++ socialLines entries ++ [""] ++ rollingLines ++
        corrLines ++ flagLines))

/- ### Spec-side definitions (for refinement comparisons with the code) -/

/-- missingMsg is the missing-field error text. -/
def missingMsg (f : String) : String := "Missing required field: " ++ f

/-- stMissing is the spec check "required field f is present". -/
def stMissing (f : String) (e : Entry) : Option VRes :=
  if (getField e f).isSome then none else some (VRes.err (missingMsg f))

/-- stDate is the spec check "the date parses as %Y-%m-%d" (a non-string
date makes strptime raise TypeError, uncaught by the code). -/
def stDate (e : Entry) : Option VRes :=
  match getField e "date" with
  | some (PyVal.VStr d) =>
    if dateOkYMD d then none else some (VRes.err "Date must be in YYYY-MM-DD format")
  | some _ => some (VRes.exn "strptime() argument 1 must be str")
  | none => none

/-- stTimestamp is the spec check "the timestamp parses as ISO-8601". -/
def stTimestamp (e : Entry) : Option VRes :=
  if tsGoodB e then none else some (VRes.err "Timestamp must be in ISO format")

/-- stSleep is the spec check "sleep_hours coerces with float() and lies in
[0, 24]". -/
def stSleep (e : Entry) : Option VRes :=
  match getField e "sleep_hours" with
  | none => none
  | some v =>
    match pyFloat v with
    | Except.error m => some (VRes.err ("Invalid data type: " ++ m))
    | Except.ok q =>
      if q < 0 || 24 < q then some (VRes.err "sleep_hours must be between 0 and 24")
      else none

/-- stFocus is the spec check "focus coerces with int() and lies in
[1, 10]". -/
def stFocus (e : Entry) : Option VRes :=
  match getField e "focus" with
  | none => none
  | some v =>
    match pyInt v with
    | Except.error m => some (VRes.err ("Invalid data type: " ++ m))
    | Except.ok n =>
      if n < 1 || 10 < n then some (VRes.err "focus must be between 1 and 10")
      else none

/-- stMood is the spec check "mood coerces with int() and lies in [1, 10]". -/
def stMood (e : Entry) : Option VRes :=
  match getField e "mood" with
  | none => none
  | some v =>
    match pyInt v with
    | Except.error m => some (VRes.err ("Invalid data type: " ++ m))
    | Except.ok n =>
      if n < 1 || 10 < n then some (VRes.err "mood must be between 1 and 10")
      else none

/-- stWork is the spec check "work_hours coerces with float() and lies in
[0, 24]". -/
def stWork (e : Entry) : Option VRes :=
  match getField e "work_hours" with
  | none => none
  | some v =>
    match pyFloat v with
    | Except.error m => some (VRes.err ("Invalid data type: " ++ m))
    | Except.ok q =>
      if q < 0 || 24 < q then some (VRes.err "work_hours must be between 0 and 24")
      else none

/-- stSocial is the spec check "social is one of the five categories". -/
def stSocial (e : Entry) : Option VRes :=
  match getField e "social" with
  | none => none
  | some v => if socialContains v then none else some (VRes.err socialMsg)

/-- specStageResults lists the outcome of every check of the spec priority
order on an entry: the seven missing-field checks, then date format, then
timestamp format, then the four coerce-and-range checks, then social. -/
def specStageResults (e : Entry) : List (Option VRes) :=
  requiredFields.map (fun f => stMissing f e) ++
    [stDate e, stTimestamp e, stSleep e, stFocus e, stMood e, stWork e, stSocial e]

/-- firstFailure returns the first failing check of an ordered check list,
or `ok` when every check passes — the spec "stops at first failure". -/
def firstFailure : List (Option VRes) → VRes
  | [] => VRes.ok
  | none :: rest => firstFailure rest
  | some r :: _ => r

/-- specOrderedValidate is validation as §4.1 of the spec words it: the
ordered list of checks, stopping at the first failure. -/
def specOrderedValidate (e : Entry) : VRes :=
  firstFailure (specStageResults e)

/-- startsWithSeg tests that the first list starts with the second. -/
def startsWithSeg : List Char → List Char → Bool
  | _, [] => true
  | [], _ :: _ => false
  | a :: as, b :: bs => a = b && startsWithSeg as bs

/-- containsSeg tests substring containment on character lists. -/
def containsSeg : List Char → List Char → Bool
  | [], pat => pat.isEmpty
  | c :: rest, pat => startsWithSeg (c :: rest) pat || containsSeg rest pat

/-- lowerChar maps an ASCII upper-case letter to lower case (all the
messages and field names are ASCII). -/
def lowerChar (c : Char) : Char :=
  if 'A' ≤ c ∧ c ≤ 'Z' then Char.ofNat (c.toNat + 32) else c

/-- mentionsField tests, case-insensitively, that an error message names a
field: the lower-cased field name occurs in the lower-cased message. -/
def mentionsField (msg field : String) : Bool :=
  containsSeg (msg.data.map lowerChar) (field.data.map lowerChar)

/-- namedChecksNameField: every missing-field, date-format, timestamp-format,
range and social error message names its field (case-insensitively). -/
def namedChecksNameField : Bool :=
  requiredFields.all (fun f => mentionsField (missingMsg f) f) &&
  mentionsField "Date must be in YYYY-MM-DD format" "date" &&
  mentionsField "Timestamp must be in ISO format" "timestamp" &&
  mentionsField "sleep_hours must be between 0 and 24" "sleep_hours" &&
  mentionsField "focus must be between 1 and 10" "focus" &&
  mentionsField "mood must be between 1 and 10" "mood" &&
  mentionsField "work_hours must be between 0 and 24" "work_hours" &&
  mentionsField socialMsg "social"

/- ### Predicates used to state the claims about validate_entry -/

/-- presentAllB: all seven required fields are present. -/
def presentAllB (e : Entry) : Bool :=
  requiredFields.all (fun f => (getField e f).isSome)

/-- dateFieldOkB: the date is a string accepted by the %Y-%m-%d parse. -/
def dateFieldOkB (e : Entry) : Bool :=
  match e.date with
  | some (PyVal.VStr d) => dateOkYMD d
  | _ => false

/-- sleepCoercedOkB: sleep_hours coerces with float() to a value in [0,24]. -/
def sleepCoercedOkB (e : Entry) : Bool :=
  match e.sleep_hours with
  | some v =>
    match pyFloat v with
    | Except.ok q => decide (0 ≤ q ∧ q ≤ 24)
    | Except.error _ => false
  | none => false

/-- focusCoercedOkB: focus coerces with int() to a value in [1,10]. -/
def focusCoercedOkB (e : Entry) : Bool :=
  match e.focus with
  | some v =>
    match pyInt v with
    | Except.ok n => decide (1 ≤ n ∧ n ≤ 10)
    | Except.error _ => false
  | none => false

/-- moodCoercedOkB: mood coerces with int() to a value in [1,10]. -/
def moodCoercedOkB (e : Entry) : Bool :=
  match e.mood with
  | some v =>
    match pyInt v with
    | Except.ok n => decide (1 ≤ n ∧ n ≤ 10)
    | Except.error _ => false
  | none => false

/-- workCoercedOkB: work_hours coerces with float() to a value in [0,24]. -/
def workCoercedOkB (e : Entry) : Bool :=
  match e.work_hours with
  | some v =>
    match pyFloat v with
    | Except.ok q => decide (0 ≤ q ∧ q ≤ 24)
    | Except.error _ => false
  | none => false

/-- socialOkB: social is one of the five category strings. -/
def socialOkB (e : Entry) : Bool := socialContains (socialValOf0 e)
  where socialValOf0 (e : Entry) : PyVal :=
    match e.social with
    | some v => v
    | none => PyVal.VNone

/-- validSpecAmended is the amended C1 right-hand side: all fields present,
date and timestamp parse, the coerced numeric values are in range, and
social is a valid category. -/
def validSpecAmended (e : Entry) : Bool :=
  presentAllB e && dateFieldOkB e && tsGoodB e && sleepCoercedOkB e &&
    focusCoercedOkB e && moodCoercedOkB e && workCoercedOkB e && socialOkB e

/-- numInRangeB: the raw value is numeric (int or float) with value in the
closed interval. -/
def numInRangeB (v : Option PyVal) (lo hi : ℚ) : Bool :=
  match v with
  | some (PyVal.VInt n) => decide (lo ≤ (n : ℚ) ∧ (n : ℚ) ≤ hi)
  | some (PyVal.VFloat q) => decide (lo ≤ q ∧ q ≤ hi)
  | _ => false

/-- intInRangeB: the raw value is an integer with value in the closed
interval — the literal reading of "focus is an integer in [1, 10]". -/
def intInRangeB (v : Option PyVal) (lo hi : ℤ) : Bool :=
  match v with
  | some (PyVal.VInt n) => decide (lo ≤ n ∧ n ≤ hi)
  | _ => false

/-- validSpecClaimed is the C1 right-hand side exactly as the claim words
it: every required field present, date and timestamp parse, sleep_hours
lies in [0,24], focus is an integer in [1,10], mood is an integer in
[1,10], work_hours lies in [0,24], social is one of the five categories. -/
def validSpecClaimed (e : Entry) : Bool :=
  presentAllB e && dateFieldOkB e && tsGoodB e &&
    numInRangeB e.sleep_hours 0 24 && intInRangeB e.focus 1 10 &&
    intInRangeB e.mood 1 10 && numInRangeB e.work_hours 0 24 && socialOkB e

/- ### Predicates used to state the analytics claims -/

/-- numericAt: the metric field is present and holds an int or float. -/
def numericAt (m : String) (e : Entry) : Bool :=
  match getField e m with
  | some v => (pyNum? v).isSome
  | none => false

/-- metricsNumeric: all four numeric metrics are present with int or float
values (what the in-repo callers always store). -/
def metricsNumeric (e : Entry) : Bool :=
  analyticsMetrics.all (fun m => numericAt m e)

/-- coercibleB: the metric field is present and float() accepts it. -/
def coercibleB (m : String) (e : Entry) : Bool :=
  match getField e m with
  | some v =>
    match pyFloat v with
    | Except.ok _ => true
    | Except.error _ => false
  | none => false

/-- valAt is the float()-coerced value of a metric (0 where coercion is
impossible; only used under a coercibility hypothesis). -/
def valAt (m : String) (e : Entry) : ℚ :=
  match getField e m with
  | some v =>
    match pyFloat v with
    | Except.ok q => q
    | Except.error _ => 0
  | none => 0

/-- valNumAt is the raw numeric value of a metric (0 where the value is not
numeric; only used under a numeric hypothesis). -/
def valNumAt (m : String) (e : Entry) : ℚ :=
  match getField e m with
  | some v =>
    match pyNum? v with
    | some q => q
    | none => 0
  | none => 0

/-- specFlags is identify_flags as the spec words it: exactly four fixed
threshold conditions, in fixed output order, each emitting its warning
(count, total, percentage) exactly when its count is non-zero. -/
def specFlags (entries : List Entry) : List String :=
  let n := entries.length
  [(entries.countP (fun e => decide (valNumAt "sleep_hours" e < 6)), sleepFlagMsg),
   (entries.countP (fun e => decide (valNumAt "focus" e < 4)), focusFlagMsg),
   (entries.countP (fun e => decide (valNumAt "mood" e < 4)), moodFlagMsg),
   (entries.countP (fun e => decide (10 < valNumAt "work_hours" e)), workFlagMsg)
  ].filterMap (fun p => if 0 < p.1 then some (p.2 p.1 n) else none)

/- ### Sortedness predicates for the store -/

/-- SortedStrictDesc: consecutive-free strict descent — every later entry
has a strictly smaller date string (Python string order). -/
def SortedStrictDesc (s : List Entry) : Prop :=
  List.Pairwise (fun a b => strLtB (dateStr b).data (dateStr a).data = true) s

/-- DatesStrWF: every stored entry has a string date (true of everything
that passed validation). -/
def DatesStrWF (s : List Entry) : Prop :=
  ∀ x ∈ s, ∃ d, x.date = some (PyVal.VStr d)

/- ### File-level model of save_data (data_store.py lines 35-38) -/

/-- FsOp is a primitive file operation: CPython `open(path, "w")` truncates
the file at once; `json.dump` then writes the serialized text. -/
inductive FsOp where
  | truncate : FsOp
  | write : String → FsOp
deriving DecidableEq

/-- applyFsOp runs one file operation on the current file content. -/
def applyFsOp (_file : String) : FsOp → String
  | FsOp.truncate => ""
  | FsOp.write c => c

/-- runFs runs a sequence of file operations. -/
def runFs (file : String) : List FsOp → String :=
  List.foldl applyFsOp file

/-- save_data_ops is the operation trace of save_data: open-with-truncate on
the real data file, then the write — no temporary file, no rename. -/
def save_data_ops (content : String) : List FsOp :=
  [FsOp.truncate, FsOp.write content]

/-- CrashAtomic: whatever prefix of the trace has run when a crash hits, the
file holds either the old or the new content. -/
def CrashAtomic (ops : List FsOp) (old new : String) : Prop :=
  ∀ pfx, pfx <+: ops → runFs old pfx = old ∨ runFs old pfx = new

/- ### Relation used to state the C6 tie-breaking order -/

/-- pidx is the enumeration position of a correlation triple: the index of
its metric pair in the pair enumeration order. -/
def pidx (t : String × String × ℝ) : ℕ :=
  (pairsOf analyticsMetrics).indexOf (t.1, t.2.1)

/-- corrLex: strictly greater absolute correlation, or equal absolute
correlation with strictly smaller enumeration position — the order the spec
requires of the topCorrelations output. -/
def corrLex (a b : String × String × ℝ) : Prop :=
  akey b < akey a ∨ (akey a = akey b ∧ pidx a < pidx b)

/- ### Helper lemmas: field access -/

lemma getField_date (e : Entry) : getField e "date" = e.date := rfl

lemma getField_sleep (e : Entry) : getField e "sleep_hours" = e.sleep_hours := rfl

lemma getField_focus (e : Entry) : getField e "focus" = e.focus := rfl

lemma getField_mood (e : Entry) : getField e "mood" = e.mood := rfl

lemma getField_work (e : Entry) : getField e "work_hours" = e.work_hours := rfl

lemma getField_social (e : Entry) : getField e "social" = e.social := rfl

lemma getField_timestamp (e : Entry) : getField e "timestamp" = e.timestamp := rfl

/- ### Helper lemmas: the lexicographic string order -/

lemma strLtB_irrefl (a : List Char) : strLtB a a = false := by
  induction a with
  | nil => rfl
  | cons c cs ih => simp [strLtB, ih]

lemma strLtB_asymm {a b : List Char} (h : strLtB a b = true) :
    strLtB b a = false := by
  induction a generalizing b with
  | nil =>
    cases b with
    | nil => simp [strLtB] at h
    | cons d ds => simp [strLtB]
  | cons c cs ih =>
    cases b with
    | nil => simp [strLtB] at h
    | cons d ds =>
      by_cases hcd : c < d
      · have hdc : ¬ d < c := lt_asymm hcd
        simp [strLtB, hdc, hcd]
      · by_cases hdc : d < c
        · simp [strLtB, hcd, hdc] at h
        · have hrec : strLtB cs ds = true := by simpa [strLtB, hcd, hdc] using h
          simp [strLtB, hcd, hdc, ih hrec]

lemma strLtB_trichotomy (a b : List Char) :
    strLtB a b = true ∨ strLtB b a = true ∨ a = b := by
  induction a generalizing b with
  | nil =>
    cases b with
    | nil => right; right; rfl
    | cons d ds => left; rfl
  | cons c cs ih =>
    cases b with
    | nil => right; left; rfl
    | cons d ds =>
      by_cases hcd : c < d
      · left; simp [strLtB, hcd]
      · by_cases hdc : d < c
        · right; left; simp [strLtB, hdc]
        · have hd : d = c := le_antisymm (not_lt.mp hcd) (not_lt.mp hdc)
          subst hd
          rcases ih ds with h | h | h
          · left; simp [strLtB, h]
          · right; left; simp [strLtB, h]
          · right; right; rw [h]

lemma strLtB_trans {a b c : List Char} (h1 : strLtB a b = true)
    (h2 : strLtB b c = true) : strLtB a c = true := by
  induction a generalizing b c with
  | nil =>
    cases c with
    | nil => cases b with
      | nil => exact h1
      | cons d ds => simp [strLtB] at h2
    | cons e es => rfl
  | cons x xs ih =>
    cases b with
    | nil => simp [strLtB] at h1
    | cons y ys =>
      cases c with
      | nil => simp [strLtB] at h2
      | cons z zs =>
        by_cases hxy : x < y
        · by_cases hyz : y < z
          · simp [strLtB, lt_trans hxy hyz]
          · by_cases hzy : z < y
            · simp [strLtB, hyz, hzy] at h2
            · have : z = y := le_antisymm (not_lt.mp hyz) (not_lt.mp hzy)
              subst this
              simp [strLtB, hxy]
        · by_cases hyx : y < x
          · simp [strLtB, hxy, hyx] at h1
          · have e1 : strLtB xs ys = true := by simpa [strLtB, hxy, hyx] using h1
            by_cases hxz : x < z
            · simp [strLtB, hxz]
            · by_cases hyz : y < z
              · exact absurd (lt_of_le_of_lt (not_lt.mp hyx) hyz) hxz
              · by_cases hzy : z < y
                · simp [strLtB, hyz, hzy] at h2
                · have e2 : strLtB ys zs = true := by
                    simpa [strLtB, hyz, hzy] using h2
                  have hzx : ¬ z < x := fun hc =>
                    hzy (lt_of_lt_of_le hc (not_lt.mp hyx))
                  simp [strLtB, hxz, hzx, ih e1 e2]

lemma strLtB_lt_split {a b c : List Char} (h : strLtB a c = true) :
    strLtB a b = true ∨ strLtB b c = true := by
  rcases strLtB_trichotomy a b with h1 | h1 | h1
  · exact Or.inl h1
  · exact Or.inr (strLtB_trans h1 h)
  · subst h1; exact Or.inr h

lemma strLtB_notLt_trans {a b c : List Char} (h1 : strLtB a b = false)
    (h2 : strLtB b c = false) : strLtB a c = false := by
  by_contra hac
  rcases strLtB_lt_split (b := b) (Bool.of_not_eq_false hac) with h | h
  · rw [h] at h1; cases h1
  · rw [h] at h2; cases h2

lemma strLtB_eq_of_not_lt {a b : List Char} (h1 : strLtB a b = false)
    (h2 : strLtB b a = false) : a = b := by
  rcases strLtB_trichotomy a b with h | h | h
  · rw [h] at h1; cases h1
  · rw [h] at h2; cases h2
  · exact h

/- ### Helper lemmas: the descending insertion sort of add_entry -/

lemma mem_insertDesc {x y : Entry} {l : List Entry} :
    y ∈ insertDesc x l ↔ y = x ∨ y ∈ l := by
  induction l with
  | nil => simp [insertDesc]
  | cons z zs ih =>
    by_cases h : descLe x z
    · simp [insertDesc, h]
    · simp [insertDesc, h, ih]
      tauto

lemma insertDesc_perm (x : Entry) (l : List Entry) :
    (insertDesc x l).Perm (x :: l) := by
  induction l with
  | nil => simp [insertDesc]
  | cons z zs ih =>
    by_cases h : descLe x z
    · simp [insertDesc, h]
    · rw [insertDesc, if_neg h]
      exact (List.Perm.cons z ih).trans (List.Perm.swap x z zs)

lemma sortDesc_perm (l : List Entry) : (sortDesc l).Perm l := by
  induction l with
  | nil => simp [sortDesc]
  | cons x xs ih =>
    exact ((insertDesc_perm x (sortDesc xs)).trans (List.Perm.cons x ih))

/-- geDate is the non-strict descending relation the insertion sort
establishes: the left date is not below the right date. -/
def geDate (a b : Entry) : Prop :=
  strLtB (dateStr a).data (dateStr b).data = false

lemma insertDesc_sorted {x : Entry} {l : List Entry}
    (h : List.Pairwise geDate l) :
    List.Pairwise geDate (insertDesc x l) := by
  induction l with
  | nil => simp [insertDesc, List.Pairwise]
  | cons y ys ih =>
    rcases List.pairwise_cons.mp h with ⟨hy, hys⟩
    by_cases hle : descLe x y
    · have hxy : geDate x y := by
        simpa [descLe, geDate] using hle
      rw [insertDesc, if_pos hle]
      refine List.pairwise_cons.mpr ⟨?_, h⟩
      intro z hz
      rcases List.mem_cons.mp hz with rfl | hz
      · exact hxy
      · exact strLtB_notLt_trans hxy (hy z hz)
    · have hxy : strLtB (dateStr x).data (dateStr y).data = true := by
        simpa [descLe] using hle
      rw [insertDesc, if_neg hle]
      refine List.pairwise_cons.mpr ⟨?_, ih hys⟩
      intro z hz
      rcases mem_insertDesc.mp hz with rfl | hz
      · exact strLtB_asymm hxy
      · exact hy z hz

lemma sortDesc_sorted (l : List Entry) : List.Pairwise geDate (sortDesc l) := by
  induction l with
  | nil => simp [sortDesc]
  | cons x xs ih => exact insertDesc_sorted ih

lemma sorted_strict_of_sorted_ne {l : List Entry}
    (h1 : List.Pairwise geDate l)
    (h2 : List.Pairwise (fun a b => dateStr a ≠ dateStr b) l) :
    SortedStrictDesc l := by
  refine (h1.and h2).imp ?_
  rintro a b ⟨hge, hne⟩
  have hge2 : strLtB (dateStr a).data (dateStr b).data = false := hge
  rcases strLtB_trichotomy (dateStr b).data (dateStr a).data with h | h | h
  · exact h
  · rw [h] at hge2; cases hge2
  · exact absurd (String.ext h).symm hne

/- ### Helper lemmas: add_entry and the store invariant -/

lemma add_entry_ok_dest {s : List Entry} {e : Entry} {s2 : List Entry}
    (h : add_entry s e = (VRes.ok, s2)) :
    validate_entry e = VRes.ok ∧ hasDupDate s e = false ∧
      s2 = sortDesc (s ++ [e]) := by
  cases hv : validate_entry e with
  | ok =>
    cases hdup : hasDupDate s e with
    | true => simp [add_entry, hv, hdup] at h
    | false =>
      simp only [add_entry, hv, hdup, Bool.false_eq_true, if_false,
        Prod.mk.injEq] at h
      exact ⟨rfl, rfl, h.2.symm⟩
  | err m => simp [add_entry, hv] at h
  | exn m => simp [add_entry, hv] at h

lemma add_entry_fail_dest {s : List Entry} {e : Entry} {r : VRes}
    {s2 : List Entry} (h : add_entry s e = (r, s2)) (hr : r ≠ VRes.ok) :
    s2 = s := by
  cases hv : validate_entry e with
  | ok =>
    cases hdup : hasDupDate s e with
    | true =>
      simp only [add_entry, hv, hdup, if_true, Prod.mk.injEq] at h
      exact h.2.symm
    | false =>
      simp only [add_entry, hv, hdup, Bool.false_eq_true, if_false,
        Prod.mk.injEq] at h
      exact absurd h.1.symm hr
  | err m =>
    simp only [add_entry, hv, Prod.mk.injEq] at h
    exact h.2.symm
  | exn m =>
    simp only [add_entry, hv, Prod.mk.injEq] at h
    exact h.2.symm

lemma validate_ok_date {e : Entry} (h : validate_entry e = VRes.ok) :
    ∃ d, e.date = some (PyVal.VStr d) ∧ dateOkYMD d = true := by
  cases hm : requiredFields.find? (fun f => (getField e f).isNone) with
  | some f => simp [validate_entry, hm] at h
  | none =>
    cases hd : getField e "date" with
    | none => simp [validate_entry, hm, hd] at h
    | some v =>
      cases v with
      | VInt n => simp [validate_entry, hm, hd] at h
      | VFloat q => simp [validate_entry, hm, hd] at h
      | VNone => simp [validate_entry, hm, hd] at h
      | VStr d =>
        refine ⟨d, by rw [← getField_date]; exact hd, ?_⟩
        by_contra hnd
        have hnd2 : dateOkYMD d = false := by
          cases hx : dateOkYMD d
          · rfl
          · exact absurd hx hnd
        simp [validate_entry, hm, hd, hnd2] at h

lemma strictDesc_ne {l : List Entry} (h : SortedStrictDesc l) :
    List.Pairwise (fun a b => dateStr a ≠ dateStr b) l := by
  refine h.imp ?_
  intro a b hab heq
  rw [heq] at hab
  rw [strLtB_irrefl] at hab
  cases hab

lemma reachable_inv {s : List Entry} (h : Reachable s) :
    DatesStrWF s ∧ SortedStrictDesc s := by
  induction h with
  | nil => exact ⟨by simp [DatesStrWF], List.Pairwise.nil⟩
  | step s e s2 hr heq ih =>
    obtain ⟨hv, hdup, rfl⟩ := add_entry_ok_dest heq
    obtain ⟨d, hd, _⟩ := validate_ok_date hv
    have hperm := sortDesc_perm (s ++ [e])
    constructor
    · intro x hx
      rcases List.mem_append.mp (hperm.subset hx) with hxs | hxe
      · exact ih.1 x hxs
      · rw [List.mem_singleton.mp hxe]
        exact ⟨d, hd⟩
    · apply sorted_strict_of_sorted_ne (sortDesc_sorted _)
      have hcross : ∀ a ∈ s, ∀ b ∈ [e], dateStr a ≠ dateStr b := by
        intro a ha b hb
        rw [List.mem_singleton.mp hb]
        obtain ⟨da, hda⟩ := ih.1 a ha
        have hne : pyEqO a.date e.date = false := by
          have := List.any_eq_false.mp hdup
          exact Bool.eq_false_iff.mpr (fun hc => (this a ha) hc)
        rw [hda, hd] at hne
        simp only [pyEqO, pyEq, decide_eq_false_iff_not] at hne
        simpa [dateStr, hda, hd] using hne
      have hne : List.Pairwise (fun a b => dateStr a ≠ dateStr b) (s ++ [e]) :=
        List.pairwise_append.mpr
          ⟨strictDesc_ne ih.2, List.pairwise_singleton _ _, hcross⟩
      exact ((List.Perm.pairwise_iff (fun hab => hab.symm) hperm).mpr hne)

lemma sortedStrict_head_max {h : Entry} {t : List Entry}
    (hs : SortedStrictDesc (h :: t)) :
    ∀ x ∈ h :: t, strLtB (dateStr h).data (dateStr x).data = false := by
  intro x hx
  rcases List.mem_cons.mp hx with rfl | hx
  · exact strLtB_irrefl _
  · exact strLtB_asymm ((List.pairwise_cons.mp hs).1 x hx)

/- ### Helper lemmas: validate_entry against the spec check order -/

lemma firstFailure_append_found {e : Entry} {f : String} {tail : List (Option VRes)} :
    ∀ {fs : List String},
      fs.find? (fun f => (getField e f).isNone) = some f →
      firstFailure (fs.map (fun f => stMissing f e) ++ tail) =
        VRes.err (missingMsg f)
  | [], h => by simp [List.find?] at h
  | g :: gs, h => by
    cases hp : (getField e g).isNone with
    | true =>
      rw [List.find?_cons_of_pos (p := fun f => (getField e f).isNone) gs hp] at h
      have hg : g = f := by injection h
      subst hg
      have hst : stMissing g e = some (VRes.err (missingMsg g)) := by
        rw [stMissing, Option.isNone_iff_eq_none.mp hp]
        simp
      simp [hst, firstFailure]
    | false =>
      rw [List.find?_cons_of_neg (p := fun f => (getField e f).isNone) gs
        (by simp [hp])] at h
      have hsome : (getField e g).isSome = true := by
        cases hx : getField e g
        · rw [hx] at hp; simp at hp
        · rfl
      have hst : stMissing g e = none := by simp [stMissing, hsome]
      simp only [List.map_cons, List.cons_append, hst, firstFailure]
      exact firstFailure_append_found h

lemma firstFailure_append_none {e : Entry} {tail : List (Option VRes)} :
    ∀ {fs : List String},
      fs.find? (fun f => (getField e f).isNone) = none →
      firstFailure (fs.map (fun f => stMissing f e) ++ tail) = firstFailure tail
  | [], _ => rfl
  | g :: gs, h => by
    cases hp : (getField e g).isNone with
    | true =>
      rw [List.find?_cons_of_pos (p := fun f => (getField e f).isNone) gs hp] at h
      cases h
    | false =>
      rw [List.find?_cons_of_neg (p := fun f => (getField e f).isNone) gs
        (by simp [hp])] at h
      have hsome : (getField e g).isSome = true := by
        cases hx : getField e g
        · rw [hx] at hp; simp at hp
        · rfl
      have hst : stMissing g e = none := by simp [stMissing, hsome]
      simp only [List.map_cons, List.cons_append, hst, firstFailure]
      exact firstFailure_append_none h

lemma validate_eq_spec (e : Entry) : validate_entry e = specOrderedValidate e := by
  unfold specOrderedValidate specStageResults
  cases hm : requiredFields.find? (fun f => (getField e f).isNone) with
  | some f =>
    rw [firstFailure_append_found hm]
    simp [validate_entry, hm, missingMsg]
  | none =>
    rw [firstFailure_append_none hm]
    have hp := List.find?_eq_none.mp hm
    have hpres : ∀ f ∈ requiredFields, (getField e f).isSome = true := by
      intro f hf
      have hx2 := hp f hf
      cases hx : getField e f
      · rw [hx] at hx2; simp at hx2
      · rfl
    cases hd : e.date with
    | none =>
      have hx := hpres "date" (by simp [requiredFields])
      rw [getField_date, hd] at hx
      simp at hx
    | some dv =>
      have hgd : getField e "date" = some dv := by rw [getField_date, hd]
      cases dv with
      | VInt n => simp [validate_entry, hm, hgd, firstFailure, stDate]
      | VFloat q => simp [validate_entry, hm, hgd, firstFailure, stDate]
      | VNone => simp [validate_entry, hm, hgd, firstFailure, stDate]
      | VStr d =>
        cases hdok : dateOkYMD d with
        | false => simp [validate_entry, hm, hgd, hdok, firstFailure, stDate]
        | true =>
          cases hts : tsGoodB e with
          | false =>
            simp [validate_entry, hm, hgd, hdok, hts, firstFailure, stDate,
              stTimestamp]
          | true =>
            cases hsv : e.sleep_hours with
            | none =>
              have hx := hpres "sleep_hours" (by simp [requiredFields])
              rw [getField_sleep, hsv] at hx
              simp at hx
            | some sv =>
              have hgs : getField e "sleep_hours" = some sv := by
                rw [getField_sleep, hsv]
              cases hpf : pyFloat sv with
              | error m =>
                simp [validate_entry, hm, hgd, hdok, hts, hgs, hpf,
                  firstFailure, stDate, stTimestamp, stSleep]
              | ok q =>
                by_cases hqr : q < 0 ∨ 24 < q
                · simp [validate_entry, hm, hgd, hdok, hts, hgs, hpf, hqr,
                    firstFailure, stDate, stTimestamp, stSleep]
                · cases hfv : e.focus with
                  | none =>
                    have hx := hpres "focus" (by simp [requiredFields])
                    rw [getField_focus, hfv] at hx
                    simp at hx
                  | some fv =>
                    have hgf : getField e "focus" = some fv := by
                      rw [getField_focus, hfv]
                    cases hpi : pyInt fv with
                    | error m =>
                      simp [validate_entry, hm, hgd, hdok, hts, hgs, hpf, hqr,
                        hgf, hpi, firstFailure, stDate, stTimestamp, stSleep,
                        stFocus]
                    | ok nf =>
                      by_cases hfr : nf < 1 ∨ 10 < nf
                      · simp [validate_entry, hm, hgd, hdok, hts, hgs, hpf,
                          hqr, hgf, hpi, hfr, firstFailure, stDate,
                          stTimestamp, stSleep, stFocus]
                      · cases hmv : e.mood with
                        | none =>
                          have hx := hpres "mood" (by simp [requiredFields])
                          rw [getField_mood, hmv] at hx
                          simp at hx
                        | some mv =>
                          have hgm : getField e "mood" = some mv := by
                            rw [getField_mood, hmv]
                          cases hpm : pyInt mv with
                          | error m =>
                            simp [validate_entry, hm, hgd, hdok, hts, hgs,
                              hpf, hqr, hgf, hpi, hfr, hgm, hpm, firstFailure,
                              stDate, stTimestamp, stSleep, stFocus, stMood]
                          | ok nm =>
                            by_cases hmr : nm < 1 ∨ 10 < nm
                            · simp [validate_entry, hm, hgd, hdok, hts, hgs,
                                hpf, hqr, hgf, hpi, hfr, hgm, hpm, hmr,
                                firstFailure, stDate, stTimestamp, stSleep,
                                stFocus, stMood]
                            · cases hwv : e.work_hours with
                              | none =>
                                have hx := hpres "work_hours"
                                  (by simp [requiredFields])
                                rw [getField_work, hwv] at hx
                                simp at hx
                              | some wv =>
                                have hgw : getField e "work_hours" = some wv := by
                                  rw [getField_work, hwv]
                                cases hpw : pyFloat wv with
                                | error m =>
                                  simp [validate_entry, hm, hgd, hdok, hts,
                                    hgs, hpf, hqr, hgf, hpi, hfr, hgm, hpm,
                                    hmr, hgw, hpw, firstFailure, stDate,
                                    stTimestamp, stSleep, stFocus, stMood,
                                    stWork]
                                | ok qw =>
                                  by_cases hwr : qw < 0 ∨ 24 < qw
                                  · simp [validate_entry, hm, hgd, hdok, hts,
                                      hgs, hpf, hqr, hgf, hpi, hfr, hgm, hpm,
                                      hmr, hgw, hpw, hwr, firstFailure,
                                      stDate, stTimestamp, stSleep, stFocus,
                                      stMood, stWork]
                                  · cases hcv : e.social with
                                    | none =>
                                      have hx := hpres "social"
                                        (by simp [requiredFields])
                                      rw [getField_social, hcv] at hx
                                      simp at hx
                                    | some cv =>
                                      have hgc : getField e "social" = some cv := by
                                        rw [getField_social, hcv]
                                      cases hsc : socialContains cv with
                                      | false =>
                                        simp [validate_entry, hm, hgd, hdok,
                                          hts, hgs, hpf, hqr, hgf, hpi, hfr,
                                          hgm, hpm, hmr, hgw, hpw, hwr, hgc,
                                          hsc, firstFailure, stDate,
                                          stTimestamp, stSleep, stFocus,
                                          stMood, stWork, stSocial]
                                      | true =>
                                        simp [validate_entry, hm, hgd, hdok,
                                          hts, hgs, hpf, hqr, hgf, hpi, hfr,
                                          hgm, hpm, hmr, hgw, hpw, hwr, hgc,
                                          hsc, firstFailure, stDate,
                                          stTimestamp, stSleep, stFocus,
                                          stMood, stWork, stSocial]

/- ### Helper lemmas: the success characterization of validate_entry -/

lemma stMissing_ne_ok (f : String) (e : Entry) : stMissing f e ≠ some VRes.ok := by
  unfold stMissing
  split <;> simp

lemma stDate_ne_ok (e : Entry) : stDate e ≠ some VRes.ok := by
  unfold stDate
  cases hg : getField e "date" with
  | none => simp
  | some v =>
    cases v with
    | VInt n => simp
    | VFloat q => simp
    | VNone => simp
    | VStr d => split <;> simp

lemma stTimestamp_ne_ok (e : Entry) : stTimestamp e ≠ some VRes.ok := by
  unfold stTimestamp
  split <;> simp

lemma stSleep_ne_ok (e : Entry) : stSleep e ≠ some VRes.ok := by
  unfold stSleep
  cases hg : getField e "sleep_hours" with
  | none => simp
  | some v =>
    cases hv : pyFloat v with
    | error m => simp [hv]
    | ok q => simp only [hv]; split <;> simp

lemma stFocus_ne_ok (e : Entry) : stFocus e ≠ some VRes.ok := by
  unfold stFocus
  cases hg : getField e "focus" with
  | none => simp
  | some v =>
    cases hv : pyInt v with
    | error m => simp [hv]
    | ok n => simp only [hv]; split <;> simp

lemma stMood_ne_ok (e : Entry) : stMood e ≠ some VRes.ok := by
  unfold stMood
  cases hg : getField e "mood" with
  | none => simp
  | some v =>
    cases hv : pyInt v with
    | error m => simp [hv]
    | ok n => simp only [hv]; split <;> simp

lemma stWork_ne_ok (e : Entry) : stWork e ≠ some VRes.ok := by
  unfold stWork
  cases hg : getField e "work_hours" with
  | none => simp
  | some v =>
    cases hv : pyFloat v with
    | error m => simp [hv]
    | ok q => simp only [hv]; split <;> simp

lemma stSocial_ne_ok (e : Entry) : stSocial e ≠ some VRes.ok := by
  unfold stSocial
  cases hg : getField e "social" with
  | none => simp
  | some v => split <;> simp

lemma firstFailure_eq_ok_iff :
    ∀ {l : List (Option VRes)}, (∀ x ∈ l, x ≠ some VRes.ok) →
      (firstFailure l = VRes.ok ↔ ∀ x ∈ l, x = none)
  | [], _ => by simp [firstFailure]
  | none :: rest, h => by
    have ih := firstFailure_eq_ok_iff (l := rest)
      (fun x hx => h x (List.mem_cons_of_mem _ hx))
    simp [firstFailure, ih]
  | some r :: rest, h => by
    have hr : r ≠ VRes.ok := by
      intro hc
      exact h (some r) (List.mem_cons_self _ _) (by rw [hc])
    simp [firstFailure, hr]

lemma stages_ne_ok (e : Entry) : ∀ x ∈ specStageResults e, x ≠ some VRes.ok := by
  intro x hx
  rcases List.mem_append.mp hx with hx | hx
  · obtain ⟨f, _, rfl⟩ := List.mem_map.mp hx
    exact stMissing_ne_ok f e
  · simp only [List.mem_cons, List.not_mem_nil, or_false] at hx
    rcases hx with rfl | rfl | rfl | rfl | rfl | rfl | rfl
    · exact stDate_ne_ok e
    · exact stTimestamp_ne_ok e
    · exact stSleep_ne_ok e
    · exact stFocus_ne_ok e
    · exact stMood_ne_ok e
    · exact stWork_ne_ok e
    · exact stSocial_ne_ok e

lemma spec_ok_iff (e : Entry) :
    specOrderedValidate e = VRes.ok ↔
      ((∀ f ∈ requiredFields, stMissing f e = none) ∧ stDate e = none ∧
        stTimestamp e = none ∧ stSleep e = none ∧ stFocus e = none ∧
        stMood e = none ∧ stWork e = none ∧ stSocial e = none) := by
  unfold specOrderedValidate
  rw [firstFailure_eq_ok_iff (stages_ne_ok e)]
  unfold specStageResults
  constructor
  · intro h
    refine ⟨fun f hf => h _ (List.mem_append_left _ (List.mem_map_of_mem _ hf)),
      ?_, ?_, ?_, ?_, ?_, ?_, ?_⟩ <;>
      exact h _ (List.mem_append_right _ (by simp))
  · rintro ⟨hmiss, h1, h2, h3, h4, h5, h6, h7⟩ x hx
    rcases List.mem_append.mp hx with hx | hx
    · obtain ⟨f, hf, rfl⟩ := List.mem_map.mp hx
      exact hmiss f hf
    · simp only [List.mem_cons, List.not_mem_nil, or_false] at hx
      rcases hx with rfl | rfl | rfl | rfl | rfl | rfl | rfl <;> assumption

lemma stMissing_none_iff (f : String) (e : Entry) :
    stMissing f e = none ↔ (getField e f).isSome = true := by
  unfold stMissing
  split <;> simp_all

lemma stDate_none_iff (e : Entry) (h : e.date.isSome = true) :
    stDate e = none ↔ dateFieldOkB e = true := by
  unfold stDate dateFieldOkB
  rw [getField_date]
  cases hd : e.date with
  | none => rw [hd] at h; simp at h
  | some v =>
    cases v with
    | VInt n => simp
    | VFloat q => simp
    | VNone => simp
    | VStr d => cases hdok : dateOkYMD d <;> simp [hdok]

lemma stTimestamp_none_iff (e : Entry) :
    stTimestamp e = none ↔ tsGoodB e = true := by
  unfold stTimestamp
  split <;> simp_all

lemma stSleep_none_iff (e : Entry) (h : e.sleep_hours.isSome = true) :
    stSleep e = none ↔ sleepCoercedOkB e = true := by
  unfold stSleep sleepCoercedOkB
  rw [getField_sleep]
  cases hd : e.sleep_hours with
  | none => rw [hd] at h; simp at h
  | some v =>
    cases hv : pyFloat v with
    | error m => simp [hv]
    | ok q =>
      by_cases hlo : 0 ≤ q
      · by_cases hhi : q ≤ 24
        · have hnc : ¬(q < 0 ∨ 24 < q) := by
            rintro (hc | hc)
            · exact absurd hlo (not_le.mpr hc)
            · exact absurd hhi (not_le.mpr hc)
          simp [hv, hnc, hlo, hhi]
        · have hc : q < 0 ∨ 24 < q := Or.inr (not_le.mp hhi)
          simp [hv, hc, hhi]
      · have hc : q < 0 ∨ 24 < q := Or.inl (not_le.mp hlo)
        simp [hv, hc, hlo]

lemma stFocus_none_iff (e : Entry) (h : e.focus.isSome = true) :
    stFocus e = none ↔ focusCoercedOkB e = true := by
  unfold stFocus focusCoercedOkB
  rw [getField_focus]
  cases hd : e.focus with
  | none => rw [hd] at h; simp at h
  | some v =>
    cases hv : pyInt v with
    | error m => simp [hv]
    | ok n =>
      by_cases hlo : 1 ≤ n
      · by_cases hhi : n ≤ 10
        · have hnc : ¬(n < 1 ∨ 10 < n) := by
            rintro (hc | hc)
            · exact absurd hlo (not_le.mpr hc)
            · exact absurd hhi (not_le.mpr hc)
          simp [hv, hnc, hlo, hhi]
        · have hc : n < 1 ∨ 10 < n := Or.inr (not_le.mp hhi)
          simp [hv, hc, hhi]
      · have hc : n < 1 ∨ 10 < n := Or.inl (not_le.mp hlo)
        simp [hv, hc, hlo]

lemma stMood_none_iff (e : Entry) (h : e.mood.isSome = true) :
    stMood e = none ↔ moodCoercedOkB e = true := by
  unfold stMood moodCoercedOkB
  rw [getField_mood]
  cases hd : e.mood with
  | none => rw [hd] at h; simp at h
  | some v =>
    cases hv : pyInt v with
    | error m => simp [hv]
    | ok n =>
      by_cases hlo : 1 ≤ n
      · by_cases hhi : n ≤ 10
        · have hnc : ¬(n < 1 ∨ 10 < n) := by
            rintro (hc | hc)
            · exact absurd hlo (not_le.mpr hc)
            · exact absurd hhi (not_le.mpr hc)
          simp [hv, hnc, hlo, hhi]
        · have hc : n < 1 ∨ 10 < n := Or.inr (not_le.mp hhi)
          simp [hv, hc, hhi]
      · have hc : n < 1 ∨ 10 < n := Or.inl (not_le.mp hlo)
        simp [hv, hc, hlo]

lemma stWork_none_iff (e : Entry) (h : e.work_hours.isSome = true) :
    stWork e = none ↔ workCoercedOkB e = true := by
  unfold stWork workCoercedOkB
  rw [getField_work]
  cases hd : e.work_hours with
  | none => rw [hd] at h; simp at h
  | some v =>
    cases hv : pyFloat v with
    | error m => simp [hv]
    | ok q =>
      by_cases hlo : 0 ≤ q
      · by_cases hhi : q ≤ 24
        · have hnc : ¬(q < 0 ∨ 24 < q) := by
            rintro (hc | hc)
            · exact absurd hlo (not_le.mpr hc)
            · exact absurd hhi (not_le.mpr hc)
          simp [hv, hnc, hlo, hhi]
        · have hc : q < 0 ∨ 24 < q := Or.inr (not_le.mp hhi)
          simp [hv, hc, hhi]
      · have hc : q < 0 ∨ 24 < q := Or.inl (not_le.mp hlo)
        simp [hv, hc, hlo]

lemma stSocial_none_iff (e : Entry) (h : e.social.isSome = true) :
    stSocial e = none ↔ socialOkB e = true := by
  unfold stSocial socialOkB socialOkB.socialValOf0
  rw [getField_social]
  cases hd : e.social with
  | none => rw [hd] at h; simp at h
  | some v => split <;> simp_all

lemma validate_ok_iff_amended (e : Entry) :
    validate_entry e = VRes.ok ↔ validSpecAmended e = true := by
  rw [validate_eq_spec, spec_ok_iff]
  unfold validSpecAmended
  constructor
  · rintro ⟨hmiss, h1, h2, h3, h4, h5, h6, h7⟩
    have hpres : ∀ f ∈ requiredFields, (getField e f).isSome = true :=
      fun f hf => (stMissing_none_iff f e).mp (hmiss f hf)
    have hpa : presentAllB e = true := List.all_eq_true.mpr hpres
    rw [hpa,
      (stDate_none_iff e (by
        rw [← getField_date]; exact hpres "date" (by simp [requiredFields]))).mp h1,
      (stTimestamp_none_iff e).mp h2,
      (stSleep_none_iff e (by
        rw [← getField_sleep]
        exact hpres "sleep_hours" (by simp [requiredFields]))).mp h3,
      (stFocus_none_iff e (by
        rw [← getField_focus]; exact hpres "focus" (by simp [requiredFields]))).mp h4,
      (stMood_none_iff e (by
        rw [← getField_mood]; exact hpres "mood" (by simp [requiredFields]))).mp h5,
      (stWork_none_iff e (by
        rw [← getField_work]
        exact hpres "work_hours" (by simp [requiredFields]))).mp h6,
      (stSocial_none_iff e (by
        rw [← getField_social]; exact hpres "social" (by simp [requiredFields]))).mp h7]
    rfl
  · intro h
    simp only [Bool.and_eq_true] at h
    obtain ⟨⟨⟨⟨⟨⟨⟨hpa, hd⟩, ht⟩, hs⟩, hf⟩, hmo⟩, hw⟩, hso⟩ := h
    have hpres := List.all_eq_true.mp hpa
    refine ⟨fun f hf2 => (stMissing_none_iff f e).mpr (hpres f hf2), ?_, ?_, ?_,
      ?_, ?_, ?_, ?_⟩
    · exact (stDate_none_iff e (by
        rw [← getField_date]
        exact hpres "date" (by simp [requiredFields]))).mpr hd
    · exact (stTimestamp_none_iff e).mpr ht
    · exact (stSleep_none_iff e (by
        rw [← getField_sleep]
        exact hpres "sleep_hours" (by simp [requiredFields]))).mpr hs
    · exact (stFocus_none_iff e (by
        rw [← getField_focus]
        exact hpres "focus" (by simp [requiredFields]))).mpr hf
    · exact (stMood_none_iff e (by
        rw [← getField_mood]
        exact hpres "mood" (by simp [requiredFields]))).mpr hmo
    · exact (stWork_none_iff e (by
        rw [← getField_work]
        exact hpres "work_hours" (by simp [requiredFields]))).mpr hw
    · exact (stSocial_none_iff e (by
        rw [← getField_social]
        exact hpres "social" (by simp [requiredFields]))).mpr hso

/- ### Helper lemmas: the analytics engine on numeric entries -/

lemma valNumAt_eq (m : String) (e : Entry) :
    valNumAt m e = (pyNum? ((getField e m).getD PyVal.VNone)).getD 0 := by
  unfold valNumAt
  cases getField e m with
  | none => rfl
  | some v =>
    cases hv : pyNum? v <;> simp [hv]

lemma getVals_eq {m : String} :
    ∀ {l : List Entry}, (∀ e ∈ l, (getField e m).isSome = true) →
      getVals m l = Except.ok (l.map (fun e => (getField e m).getD PyVal.VNone))
  | [], _ => rfl
  | e :: rest, h => by
    obtain ⟨v, hv⟩ := Option.isSome_iff_exists.mp (h e (List.mem_cons_self _ _))
    have ih := getVals_eq (l := rest) (fun x hx => h x (List.mem_cons_of_mem _ hx))
    simp [getVals, hv, ih]

lemma allNums_eq :
    ∀ {l : List PyVal}, (∀ v ∈ l, (pyNum? v).isSome = true) →
      allNums l = some (l.map (fun v => (pyNum? v).getD 0))
  | [], _ => rfl
  | v :: rest, h => by
    obtain ⟨q, hq⟩ := Option.isSome_iff_exists.mp (h v (List.mem_cons_self _ _))
    have ih := allNums_eq (l := rest) (fun x hx => h x (List.mem_cons_of_mem _ hx))
    simp [allNums, hq, ih]

lemma numericAt_parts {m : String} {e : Entry} (h : numericAt m e = true) :
    (getField e m).isSome = true ∧
      (pyNum? ((getField e m).getD PyVal.VNone)).isSome = true := by
  unfold numericAt at h
  cases hg : getField e m with
  | none => rw [hg] at h; cases h
  | some v => rw [hg] at h; exact ⟨rfl, h⟩

lemma calculate_average_eq {l : List Entry} {m : String}
    (h : ∀ e ∈ l, numericAt m e = true) :
    calculate_average l m = Except.ok (qmean (l.map (valNumAt m))) := by
  by_cases hl : l = []
  · subst hl
    simp [calculate_average, qmean]
  · have hpres : ∀ e ∈ l, (getField e m).isSome = true :=
      fun e he => (numericAt_parts (h e he)).1
    have hnum : ∀ v ∈ l.map (fun e => (getField e m).getD PyVal.VNone),
        (pyNum? v).isSome = true := by
      intro v hv
      obtain ⟨e, he, rfl⟩ := List.mem_map.mp hv
      exact (numericAt_parts (h e he)).2
    simp only [calculate_average, hl, if_false, getVals_eq hpres, statMean,
      allNums_eq hnum, List.map_map]
    have hmaps : l.map ((fun v => (pyNum? v).getD 0) ∘
        (fun e => (getField e m).getD PyVal.VNone)) = l.map (valNumAt m) := by
      apply List.map_congr_left
      intro e _
      simp [Function.comp_apply, valNumAt_eq]
    rw [hmaps]

lemma calculate_rolling_average_eq {l : List Entry} {m : String} {w : ℕ}
    (h : ∀ e ∈ l, numericAt m e = true) :
    calculate_rolling_average l m w =
      Except.ok (if l = [] then 0 else qmean ((l.take w).map (valNumAt m))) := by
  by_cases hl : l = []
  · subst hl; simp [calculate_rolling_average]
  · rw [calculate_rolling_average, if_neg hl, if_neg hl]
    exact calculate_average_eq (fun e he => h e (List.take_subset _ _ he))

lemma countLt_eq {m : String} {b : ℚ} :
    ∀ {l : List Entry}, (∀ e ∈ l, numericAt m e = true) →
      countLt m b l = Except.ok (l.countP (fun e => decide (valNumAt m e < b)))
  | [], _ => rfl
  | e :: rest, h => by
    have hna := numericAt_parts (h e (List.mem_cons_self _ _))
    obtain ⟨v, hv⟩ := Option.isSome_iff_exists.mp hna.1
    have hnum2 : (pyNum? v).isSome = true := by
      have hx := hna.2
      rw [hv] at hx
      simpa using hx
    obtain ⟨q, hq⟩ := Option.isSome_iff_exists.mp hnum2
    have ih := countLt_eq (b := b) (l := rest)
      (fun x hx => h x (List.mem_cons_of_mem _ hx))
    have hval : valNumAt m e = q := by simp [valNumAt, hv, hq]
    simp only [countLt, hv, hq, ih, List.countP_cons, hval]
    by_cases hc : q < b
    · simp [hc]
    · simp [hc]

lemma countGt_eq {m : String} {b : ℚ} :
    ∀ {l : List Entry}, (∀ e ∈ l, numericAt m e = true) →
      countGt m b l = Except.ok (l.countP (fun e => decide (b < valNumAt m e)))
  | [], _ => rfl
  | e :: rest, h => by
    have hna := numericAt_parts (h e (List.mem_cons_self _ _))
    obtain ⟨v, hv⟩ := Option.isSome_iff_exists.mp hna.1
    have hnum2 : (pyNum? v).isSome = true := by
      have hx := hna.2
      rw [hv] at hx
      simpa using hx
    obtain ⟨q, hq⟩ := Option.isSome_iff_exists.mp hnum2
    have ih := countGt_eq (b := b) (l := rest)
      (fun x hx => h x (List.mem_cons_of_mem _ hx))
    have hval : valNumAt m e = q := by simp [valNumAt, hv, hq]
    simp only [countGt, hv, hq, ih, List.countP_cons, hval]
    by_cases hc : b < q
    · simp [hc]
    · simp [hc]

lemma metricsNumeric_at {e : Entry} (h : metricsNumeric e = true) :
    numericAt "sleep_hours" e = true ∧ numericAt "focus" e = true ∧
      numericAt "mood" e = true ∧ numericAt "work_hours" e = true := by
  unfold metricsNumeric analyticsMetrics at h
  simp only [List.all_cons, List.all_nil, Bool.and_eq_true, Bool.and_true] at h
  exact ⟨h.1, h.2.1, h.2.2.1, h.2.2.2⟩

lemma identify_flags_eq {entries : List Entry}
    (h : ∀ e ∈ entries, metricsNumeric e = true) :
    identify_flags entries = Except.ok (specFlags entries) := by
  by_cases hl : entries = []
  · subst hl
    simp [identify_flags, specFlags]
  · have h1 : ∀ e ∈ entries, numericAt "sleep_hours" e = true :=
      fun e he => (metricsNumeric_at (h e he)).1
    have h2 : ∀ e ∈ entries, numericAt "focus" e = true :=
      fun e he => (metricsNumeric_at (h e he)).2.1
    have h3 : ∀ e ∈ entries, numericAt "mood" e = true :=
      fun e he => (metricsNumeric_at (h e he)).2.2.1
    have h4 : ∀ e ∈ entries, numericAt "work_hours" e = true :=
      fun e he => (metricsNumeric_at (h e he)).2.2.2
    rw [identify_flags, if_neg hl]
    rw [countLt_eq h1, countLt_eq h2, countLt_eq h3, countGt_eq h4]
    simp only [specFlags, List.filterMap]
    split_ifs <;> simp

/- ### Helper lemmas: Pearson correlation -/

lemma floatVals_eq {m : String} :
    ∀ {l : List Entry}, (∀ e ∈ l, coercibleB m e = true) →
      floatVals m l = Except.ok (l.map (valAt m))
  | [], _ => rfl
  | e :: rest, h => by
    have hh := h e (List.mem_cons_self _ _)
    unfold coercibleB at hh
    have ih := floatVals_eq (l := rest)
      (fun x hx => h x (List.mem_cons_of_mem _ hx))
    cases hg : getField e m with
    | none => rw [hg] at hh; simp at hh
    | some v =>
      rw [hg] at hh
      cases hf : pyFloat v with
      | error msg => simp [hf] at hh
      | ok q =>
        have hval : valAt m e = q := by simp [valAt, hg, hf]
        simp [floatVals, hg, hf, ih, hval]

lemma numericAt_coercible {m : String} {e : Entry} (h : numericAt m e = true) :
    coercibleB m e = true := by
  unfold numericAt at h
  unfold coercibleB
  cases hg : getField e m with
  | none => rw [hg] at h; cases h
  | some v =>
    rw [hg] at h
    cases v with
    | VInt n => rfl
    | VFloat q => rfl
    | VStr s => simp [pyNum?] at h
    | VNone => simp [pyNum?] at h

lemma valAt_eq_valNumAt {m : String} {e : Entry} (h : numericAt m e = true) :
    valAt m e = valNumAt m e := by
  unfold numericAt at h
  cases hg : getField e m with
  | none => rw [hg] at h; cases h
  | some v =>
    cases v with
    | VInt n => simp [valAt, valNumAt, hg, pyFloat, pyNum?]
    | VFloat q => simp [valAt, valNumAt, hg, pyFloat, pyNum?]
    | VStr s => rw [hg] at h; simp [pyNum?] at h
    | VNone => rw [hg] at h; simp [pyNum?] at h

lemma sum_const {c : ℚ} :
    ∀ {l : List ℚ}, (∀ a ∈ l, a = c) → l.sum = c * l.length
  | [], _ => by simp
  | a :: rest, h => by
    have ha : a = c := h a (List.mem_cons_self _ _)
    have ih := sum_const (l := rest) (fun x hx => h x (List.mem_cons_of_mem _ hx))
    rw [List.sum_cons, ih, ha, List.length_cons]
    push_cast
    ring

lemma qmean_const {c : ℚ} {vs : List ℚ} (hne : vs ≠ [])
    (h : ∀ a ∈ vs, a = c) : qmean vs = c := by
  have hlen : (vs.length : ℚ) ≠ 0 := by
    exact_mod_cast Nat.pos_iff_ne_zero.mp (List.length_pos.mpr hne)
  rw [qmean, sum_const h, mul_div_assoc, div_self hlen, mul_one]

lemma zip_self_sum (μ : ℚ) :
    ∀ (vs : List ℚ),
      ((vs.zip vs).map (fun p => (p.1 - μ) * (p.2 - μ))).sum =
        (vs.map (fun v => (v - μ) ^ 2)).sum
  | [] => by simp
  | a :: rest => by
    have ih := zip_self_sum μ rest
    simp only [List.zip_cons_cons, List.map_cons, List.sum_cons, ih]
    ring

lemma sum_sq_nonneg (μ : ℚ) (vs : List ℚ) :
    0 ≤ (vs.map (fun v => (v - μ) ^ 2)).sum := by
  apply List.sum_nonneg
  intro x hx
  obtain ⟨v, _, rfl⟩ := List.mem_map.mp hx
  positivity

lemma sum_sq_zero {μ : ℚ} {vs : List ℚ} (h : ∀ a ∈ vs, a = μ) :
    (vs.map (fun v => (v - μ) ^ 2)).sum = 0 := by
  apply List.sum_eq_zero
  intro x hx
  obtain ⟨v, hv, rfl⟩ := List.mem_map.mp hx
  rw [h v hv]
  ring

lemma sum_sq_pos {μ a : ℚ} {vs : List ℚ} (ha : a ∈ vs) (hne : a ≠ μ) :
    0 < (vs.map (fun v => (v - μ) ^ 2)).sum := by
  have hterm : 0 < (a - μ) ^ 2 :=
    pow_two_pos_of_ne_zero (sub_ne_zero.mpr hne)
  refine lt_of_lt_of_le hterm ?_
  apply List.single_le_sum
  · intro x hx
    obtain ⟨v, _, rfl⟩ := List.mem_map.mp hx
    positivity
  · exact List.mem_map_of_mem _ ha

lemma corrOfVals_self_one {vs : List ℚ}
    (hS : (vs.map (fun v => (v - qmean vs) ^ 2)).sum ≠ 0) :
    corrOfVals vs vs = 1 := by
  have hS0 : 0 ≤ (vs.map (fun v => (v - qmean vs) ^ 2)).sum :=
    sum_sq_nonneg _ _
  simp only [corrOfVals]
  rw [zip_self_sum (qmean vs) vs]
  set S : ℚ := (vs.map (fun v => (v - qmean vs) ^ 2)).sum with hSdef
  have hsqrt : Real.sqrt ((S * S : ℚ) : ℝ) = (S : ℝ) := by
    push_cast
    exact Real.sqrt_mul_self (by exact_mod_cast hS0)
  have hne2 : (S : ℝ) ≠ 0 := by exact_mod_cast hS
  rw [hsqrt, if_neg hne2]
  exact div_self hne2

lemma corrOfVals_left_const {vs ws : List ℚ}
    (h : ∀ a ∈ vs, ∀ b ∈ vs, a = b) : corrOfVals vs ws = 0 := by
  have hS : (vs.map (fun v => (v - qmean vs) ^ 2)).sum = 0 := by
    by_cases hne : vs = []
    · subst hne; simp
    · obtain ⟨a, ha⟩ := List.exists_mem_of_ne_nil vs hne
      have hmean : qmean vs = a := qmean_const hne (fun x hx => h x hx a ha)
      apply sum_sq_zero
      intro x hx
      rw [hmean]
      exact h x hx a ha
  simp only [corrOfVals, hS]
  rw [zero_mul]
  simp

lemma calculate_correlation_eq {entries : List Entry} {m1 m2 : String}
    (hlen : ¬ entries.length < 2)
    (hc1 : ∀ e ∈ entries, coercibleB m1 e = true)
    (hc2 : ∀ e ∈ entries, coercibleB m2 e = true) :
    calculate_correlation entries m1 m2 =
      Except.ok (corrOfVals (entries.map (valAt m1)) (entries.map (valAt m2))) := by
  simp [calculate_correlation, hlen, floatVals_eq hc1, floatVals_eq hc2]

/- ### Helper lemmas: the stable descending sort of get_top_correlations -/

lemma corrLex_key_le {a b : String × String × ℝ} (h : corrLex a b) :
    akey b ≤ akey a := by
  rcases h with h | h
  · exact le_of_lt h
  · exact le_of_eq h.1.symm

lemma mem_insertCorrDesc {x y : String × String × ℝ} :
    ∀ {l : List (String × String × ℝ)},
      (y ∈ insertCorrDesc x l ↔ y = x ∨ y ∈ l)
  | [] => by simp [insertCorrDesc]
  | z :: zs => by
    by_cases h : akey z ≤ akey x
    · rw [insertCorrDesc, if_pos h]
      simp
    · rw [insertCorrDesc, if_neg h]
      simp only [List.mem_cons, mem_insertCorrDesc (l := zs)]
      tauto

lemma insertCorrDesc_perm (x : String × String × ℝ) :
    ∀ (l : List (String × String × ℝ)), (insertCorrDesc x l).Perm (x :: l)
  | [] => by simp [insertCorrDesc]
  | z :: zs => by
    by_cases h : akey z ≤ akey x
    · rw [insertCorrDesc, if_pos h]
    · rw [insertCorrDesc, if_neg h]
      exact (List.Perm.cons z (insertCorrDesc_perm x zs)).trans
        (List.Perm.swap x z zs)

lemma sortCorrDesc_perm :
    ∀ (l : List (String × String × ℝ)), (sortCorrDesc l).Perm l
  | [] => List.Perm.refl _
  | x :: xs =>
    (insertCorrDesc_perm x (sortCorrDesc xs)).trans
      (List.Perm.cons x (sortCorrDesc_perm xs))

lemma insertCorrDesc_pairwise {x : String × String × ℝ} :
    ∀ {l : List (String × String × ℝ)}, List.Pairwise corrLex l →
      (∀ b ∈ l, pidx x < pidx b) →
      List.Pairwise corrLex (insertCorrDesc x l)
  | [], _, _ => by simp [insertCorrDesc]
  | y :: ys, h, hidx => by
    rcases List.pairwise_cons.mp h with ⟨hy, hys⟩
    by_cases hle : akey y ≤ akey x
    · rw [insertCorrDesc, if_pos hle]
      refine List.pairwise_cons.mpr ⟨?_, h⟩
      intro z hz
      rcases List.mem_cons.mp hz with rfl | hz
      · by_cases hlt : akey z < akey x
        · exact Or.inl hlt
        · exact Or.inr ⟨le_antisymm (not_lt.mp hlt) hle,
            hidx z (List.mem_cons_self _ _)⟩
      · have hzy : akey z ≤ akey y := corrLex_key_le (hy z hz)
        by_cases hlt : akey z < akey x
        · exact Or.inl hlt
        · exact Or.inr ⟨le_antisymm (not_lt.mp hlt) (le_trans hzy hle),
            hidx z (List.mem_cons_of_mem _ hz)⟩
    · rw [insertCorrDesc, if_neg hle]
      refine List.pairwise_cons.mpr ⟨?_,
        insertCorrDesc_pairwise hys
          (fun b hb => hidx b (List.mem_cons_of_mem _ hb))⟩
      intro z hz
      rcases mem_insertCorrDesc.mp hz with rfl | hz
      · exact Or.inl (not_le.mp hle)
      · exact hy z hz

lemma sortCorrDesc_pairwise :
    ∀ {l : List (String × String × ℝ)},
      List.Pairwise (fun a b => pidx a < pidx b) l →
      List.Pairwise corrLex (sortCorrDesc l)
  | [], _ => List.Pairwise.nil
  | x :: xs, h => by
    rcases List.pairwise_cons.mp h with ⟨hx, hxs⟩
    exact insertCorrDesc_pairwise (sortCorrDesc_pairwise hxs)
      (fun b hb => hx b ((sortCorrDesc_perm xs).subset hb))

/- ### Helper lemmas: get_top_correlations on coercible entries -/

/-- corrValAt is the correlation triple the code computes for one metric
pair. -/
noncomputable def corrValAt (entries : List Entry) (p : String × String) :
    String × String × ℝ :=
  (p.1, p.2, corrOfVals (entries.map (valAt p.1)) (entries.map (valAt p.2)))

lemma corrList_eq {entries : List Entry} (hlen : ¬ entries.length < 2)
    (hc : ∀ m ∈ analyticsMetrics, ∀ e ∈ entries, coercibleB m e = true) :
    ∀ {l : List (String × String)},
      (∀ p ∈ l, p.1 ∈ analyticsMetrics ∧ p.2 ∈ analyticsMetrics) →
      corrList entries l = Except.ok (l.map (corrValAt entries))
  | [], _ => rfl
  | p :: rest, hp => by
    have h1 := (hp p (List.mem_cons_self _ _)).1
    have h2 := (hp p (List.mem_cons_self _ _)).2
    have ih := corrList_eq hlen hc (l := rest)
      (fun q hq => hp q (List.mem_cons_of_mem _ hq))
    simp [corrList, calculate_correlation_eq hlen (hc p.1 h1) (hc p.2 h2), ih,
      corrValAt]

lemma pairs_mem :
    ∀ p ∈ pairsOf analyticsMetrics,
      p.1 ∈ analyticsMetrics ∧ p.2 ∈ analyticsMetrics := by
  decide

lemma get_top_eq {entries : List Entry} (hlen : ¬ entries.length < 2)
    (hc : ∀ m ∈ analyticsMetrics, ∀ e ∈ entries, coercibleB m e = true) :
    get_top_correlations entries =
      Except.ok (sortCorrDesc ((pairsOf analyticsMetrics).map
        (corrValAt entries))) := by
  simp [get_top_correlations, hlen, corrList_eq hlen hc pairs_mem]

lemma input_pidx (entries : List Entry) :
    List.Pairwise (fun a b => pidx a < pidx b)
      ((pairsOf analyticsMetrics).map (corrValAt entries)) := by
  rw [List.pairwise_map]
  have hp : ∀ p : String × String,
      pidx (corrValAt entries p) = (pairsOf analyticsMetrics).indexOf p := by
    intro p
    simp [pidx, corrValAt]
  simp only [hp]
  decide

/- ### Helper lemmas: generate_summary totality on numeric validated entries -/

lemma metricsNumeric_coercible {e : Entry} (h : metricsNumeric e = true) :
    ∀ m ∈ analyticsMetrics, coercibleB m e = true := by
  intro m hm
  exact numericAt_coercible (List.all_eq_true.mp h m hm)

lemma get_top_ok {entries : List Entry}
    (h : ∀ e ∈ entries, metricsNumeric e = true) :
    ∃ tc, get_top_correlations entries = Except.ok tc := by
  by_cases hlen : entries.length < 2
  · exact ⟨[], by simp [get_top_correlations, hlen]⟩
  · exact ⟨_, get_top_eq hlen
      (fun m hm e he => metricsNumeric_coercible (h e he) m hm)⟩

lemma generate_summary_ok {entries : List Entry} {days : ℤ}
    (h : ∀ e ∈ entries, metricsNumeric e = true) :
    ∃ s, generate_summary entries days = Except.ok s := by
  by_cases hl : entries = []
  · subst hl
    exact ⟨"No data available.", by simp [generate_summary]⟩
  · have h1 : ∀ e ∈ entries, numericAt "sleep_hours" e = true :=
      fun e he => (metricsNumeric_at (h e he)).1
    have h2 : ∀ e ∈ entries, numericAt "focus" e = true :=
      fun e he => (metricsNumeric_at (h e he)).2.1
    have h3 : ∀ e ∈ entries, numericAt "mood" e = true :=
      fun e he => (metricsNumeric_at (h e he)).2.2.1
    have h4 : ∀ e ∈ entries, numericAt "work_hours" e = true :=
      fun e he => (metricsNumeric_at (h e he)).2.2.2
    obtain ⟨tc, htc⟩ := get_top_ok h
    cases hres : generate_summary entries days with
    | ok s => exact ⟨s, rfl⟩
    | error m =>
      exfalso
      rw [generate_summary, if_neg hl, calculate_average_eq h1,
        calculate_average_eq h2, calculate_average_eq h3,
        calculate_average_eq h4, calculate_rolling_average_eq h1,
        calculate_rolling_average_eq h2, calculate_rolling_average_eq h3,
        calculate_rolling_average_eq h4, htc, identify_flags_eq h] at hres
      by_cases h7 : 7 ≤ entries.length
      · simp [h7] at hres
      · simp [h7] at hres

/- ### Concrete entries used by witnesses and counterexamples -/

/-- baseEntry is a fully valid entry with int/float metric values. -/
def baseEntry : Entry :=
  { date := some (PyVal.VStr "2024-01-05"),
    sleep_hours := some (PyVal.VFloat 8),
    focus := some (PyVal.VInt 7),
    mood := some (PyVal.VInt 6),
    work_hours := some (PyVal.VFloat 8),
    social := some (PyVal.VStr "none"),
    timestamp := some (PyVal.VStr "2024-01-05T08:00:00") }

/-- e5Entry is a valid entry for the next day with 5 hours of sleep. -/
def e5Entry : Entry :=
  { baseEntry with
    date := some (PyVal.VStr "2024-01-06"),
    sleep_hours := some (PyVal.VFloat 5),
    timestamp := some (PyVal.VStr "2024-01-06T08:00:00") }

/-- c1Entry is valid to the code but has a non-integer focus value. -/
def c1Entry : Entry := { baseEntry with focus := some (PyVal.VFloat (mkRat 11 2)) }

/-- c2Second duplicates the date of baseEntry but is itself invalid. -/
def c2Second : Entry := { baseEntry with focus := some (PyVal.VInt 99) }

/-- c2Third duplicates the date of baseEntry and is itself valid. -/
def c2Third : Entry := { baseEntry with mood := some (PyVal.VInt 3) }

/-- c4Entry stores sleep_hours as the string "8": valid to the code. -/
def c4Entry : Entry := { baseEntry with sleep_hours := some (PyVal.VStr "8") }

/-- c8Entry has a focus value that the int() coercion rejects. -/
def c8Entry : Entry := { baseEntry with focus := some (PyVal.VStr "abc") }

/-- c10Entry stores sleep_hours as a string and focus as a non-integer. -/
def c10Entry : Entry :=
  { baseEntry with
    sleep_hours := some (PyVal.VStr "8"),
    focus := some (PyVal.VFloat (mkRat 11 2)) }

/-- s8Entry holds the value 8 in all four numeric metrics. -/
def s8Entry : Entry :=
  { baseEntry with
    sleep_hours := some (PyVal.VFloat 8),
    focus := some (PyVal.VInt 8),
    mood := some (PyVal.VInt 8),
    work_hours := some (PyVal.VFloat 8) }

/-- s5Entry is s8Entry with 5 hours of sleep. -/
def s5Entry : Entry := { s8Entry with sleep_hours := some (PyVal.VFloat 5) }

/- ### Claim C1 -/

/-- Claim C1 (counterexample): the entry c1Entry, whose focus is the
non-integer 5.5, passes validate_entry — int() truncates it to 5 — although
the claimed right-hand side ("focus is an integer in [1, 10]") is false, so
the claimed equivalence fails as stated. -/
theorem C1_counterexample :
    validate_entry c1Entry = VRes.ok ∧ validSpecClaimed c1Entry = false := by
  decide

/-- Claim C1 (amended): validate_entry succeeds iff every required field is
present, the date parses as %Y-%m-%d, the timestamp parses as ISO-8601, the
float()-coercion of sleep_hours exists and lies in [0, 24], the
int()-coercions of focus and mood exist and lie in [1, 10] (numeric strings
and floats are accepted and truncated), the float()-coercion of work_hours
exists and lies in [0, 24], and social is one of the five categories. -/
theorem C1_validate_iff (e : Entry) :
    validate_entry e = VRes.ok ↔ validSpecAmended e = true :=
  validate_ok_iff_amended e

/- ### Claim C2 -/

/-- Claim C2 (counterexample): after baseEntry is added, a second entry with
the same date but an out-of-range focus fails with the focus validation
error, not with the duplicate-date error — validation runs before the
duplicate check. -/
theorem C2_counterexample :
    (add_entry [] baseEntry).1 = VRes.ok ∧
    pyEqO c2Second.date baseEntry.date = true ∧
    (add_entry (add_entry [] baseEntry).2 c2Second).1 =
      VRes.err "focus must be between 1 and 10" ∧
    VRes.err "focus must be between 1 and 10" ≠ VRes.err (dupMsg c2Second) := by
  decide

lemma pyEq_symm (a b : PyVal) : pyEq a b = pyEq b a := by
  cases a <;> cases b <;> simp [pyEq, eq_comm]

/-- Claim C2 (amended): after a successful add of an entry, a second
add_entry with the same date always fails — with the duplicate-date error
when the second entry itself passes validation, regardless of any other
field differences — and every failing add_entry call (validation failure,
duplicate date, or propagated exception) leaves the persisted collection
unchanged. -/
theorem C2_add_entry :
    (∀ (s s1 : List Entry) (e1 e2 : Entry),
      add_entry s e1 = (VRes.ok, s1) → validate_entry e2 = VRes.ok →
      pyEqO e2.date e1.date = true →
      add_entry s1 e2 = (VRes.err (dupMsg e2), s1)) ∧
    (∀ (s : List Entry) (e : Entry) (r : VRes) (s2 : List Entry),
      add_entry s e = (r, s2) → r ≠ VRes.ok → s2 = s) := by
  constructor
  · intro s s1 e1 e2 hadd hv2 hdates
    obtain ⟨_, _, rfl⟩ := add_entry_ok_dest hadd
    have he1 : e1 ∈ sortDesc (s ++ [e1]) :=
      (sortDesc_perm _).symm.subset
        (List.mem_append_right _ (List.mem_singleton_self _))
    have hdup : hasDupDate (sortDesc (s ++ [e1])) e2 = true := by
      apply List.any_eq_true.mpr
      refine ⟨e1, he1, ?_⟩
      cases hd1 : e1.date with
      | none => rw [hd1] at hdates; cases e2.date <;> simp [pyEqO] at hdates
      | some v1 =>
        cases hd2 : e2.date with
        | none => rw [hd2] at hdates; simp [pyEqO] at hdates
        | some v2 =>
          rw [hd1, hd2] at hdates
          simp only [pyEqO] at hdates ⊢
          rw [pyEq_symm]
          exact hdates
    simp [add_entry, hv2, hdup]
  · intro s e r s2 hadd hr
    exact add_entry_fail_dest hadd hr

/-- Claim C2 (witness): concrete instantiations of both conjuncts. -/
theorem C2_witness :
    add_entry [baseEntry] c2Third = (VRes.err (dupMsg c2Third), [baseEntry]) ∧
    (add_entry [] c2Second).2 = [] :=
  ⟨C2_add_entry.1 [] [baseEntry] baseEntry c2Third (by decide) (by decide)
      (by decide),
    C2_add_entry.2 [] c2Second (add_entry [] c2Second).1
      (add_entry [] c2Second).2 rfl (by decide)⟩

/- ### Claim C3 -/

/-- Claim C3: every store reachable by successful add_entry calls is sorted
strictly descending by date; get_entries preserves that order for any
limit; a positive limit takes exactly the first n entries, a non-positive
or absent limit returns all; and on a non-empty reachable store with limit
at least 1 the first returned entry has the maximal (most recent) date. -/
theorem C3_get_entries :
    (∀ s, Reachable s → SortedStrictDesc s) ∧
    (∀ s d, Reachable s → SortedStrictDesc (get_entries s d)) ∧
    (∀ (s : List Entry) (n : ℤ), 0 < n →
      get_entries s (some n) = s.take n.toNat) ∧
    (∀ (s : List Entry) (n : ℤ), n ≤ 0 → get_entries s (some n) = s) ∧
    (∀ s : List Entry, get_entries s none = s) ∧
    (∀ (s : List Entry) (n : ℤ), Reachable s → 1 ≤ n → s ≠ [] →
      ∃ h t, get_entries s (some n) = h :: t ∧
        ∀ x ∈ s, strLtB (dateStr h).data (dateStr x).data = false) := by
  have hsorted : ∀ s, Reachable s → SortedStrictDesc s :=
    fun s hr => (reachable_inv hr).2
  refine ⟨hsorted, ?_, ?_, ?_, ?_, ?_⟩
  · intro s d hr
    cases d with
    | none => exact hsorted s hr
    | some n =>
      by_cases hn : 0 < n
      · rw [get_entries, if_pos hn]
        exact (hsorted s hr).sublist (List.take_sublist _ _)
      · rw [get_entries, if_neg hn]
        exact hsorted s hr
  · intro s n hn
    rw [get_entries, if_pos hn]
  · intro s n hn
    rw [get_entries, if_neg (not_lt.mpr hn)]
  · intro s
    rfl
  · intro s n hr hn hne
    cases hs : s with
    | nil => exact absurd hs hne
    | cons h t =>
      subst hs
      have hpos : 0 < n := lt_of_lt_of_le one_pos hn
      obtain ⟨k, hk⟩ : ∃ k, n.toNat = k + 1 := ⟨n.toNat - 1, by omega⟩
      refine ⟨h, t.take k, ?_, ?_⟩
      · rw [get_entries, if_pos hpos, hk]
        rfl
      · exact sortedStrict_head_max (hsorted _ hr)

/-- Claim C3 (witness): a concrete two-entry reachable store, its ordering
and the get_entries limit behavior. -/
theorem C3_witness :
    SortedStrictDesc [e5Entry, baseEntry] ∧
    get_entries [e5Entry, baseEntry] (some 1) =
      [e5Entry, baseEntry].take (1 : ℤ).toNat ∧
    get_entries [e5Entry, baseEntry] (some (-1)) = [e5Entry, baseEntry] ∧
    get_entries [e5Entry, baseEntry] none = [e5Entry, baseEntry] ∧
    (∃ h t, get_entries [e5Entry, baseEntry] (some 2) = h :: t ∧
      ∀ x ∈ [e5Entry, baseEntry],
        strLtB (dateStr h).data (dateStr x).data = false) := by
  have hr1 : Reachable [baseEntry] :=
    Reachable.step [] baseEntry [baseEntry] Reachable.nil (by decide)
  have hr2 : Reachable [e5Entry, baseEntry] :=
    Reachable.step [baseEntry] e5Entry [e5Entry, baseEntry] hr1 (by decide)
  exact ⟨C3_get_entries.1 _ hr2,
    C3_get_entries.2.2.1 [e5Entry, baseEntry] 1 (by decide),
    C3_get_entries.2.2.2.1 [e5Entry, baseEntry] (-1) (by decide),
    C3_get_entries.2.2.2.2.1 [e5Entry, baseEntry],
    C3_get_entries.2.2.2.2.2 [e5Entry, baseEntry] 2 hr2 (by decide) (by decide)⟩

/- ### Claim C4 -/

/-- Claim C4 (counterexample): c4Entry stores sleep_hours as the string "8"
and passes validate_entry, yet calculate_average raises — statistics.mean
rejects the uncoerced string — so the engine is not total on everything
that passes validation. -/
theorem C4_counterexample :
    validate_entry c4Entry = VRes.ok ∧
    calculate_average [c4Entry] "sleep_hours" =
      Except.error "TypeError: can not convert type to numerator/denominator" := by
  decide

/-- Claim C4 (amended): on entries that passed validate_entry and whose four
numeric metrics hold int or float values (what every in-repo caller stores),
no analytics operation fails; and every edge case — empty input, fewer than
2 entries, zero variance — produces the defined total result (0.0, the
empty list, or the fixed placeholder string). -/
theorem C4_analytics_total :
    (∀ entries : List Entry,
      (∀ e ∈ entries, validate_entry e = VRes.ok ∧ metricsNumeric e = true) →
      ∀ days : ℤ,
      (∀ m ∈ analyticsMetrics,
        (∃ q, calculate_average entries m = Except.ok q) ∧
        (∀ w : ℕ, ∃ q, calculate_rolling_average entries m w = Except.ok q) ∧
        (∀ m2 ∈ analyticsMetrics,
          ∃ r, calculate_correlation entries m m2 = Except.ok r)) ∧
      (∃ fl, identify_flags entries = Except.ok fl) ∧
      (∃ tc, get_top_correlations entries = Except.ok tc) ∧
      (∃ s, generate_summary entries days = Except.ok s)) ∧
    (∀ m, calculate_average [] m = Except.ok 0) ∧
    (∀ m (w : ℕ), calculate_rolling_average [] m w = Except.ok 0) ∧
    (∀ (entries : List Entry) (m1 m2 : String), entries.length < 2 →
      calculate_correlation entries m1 m2 = Except.ok 0) ∧
    identify_flags [] = Except.ok [] ∧
    (∀ entries : List Entry, entries.length < 2 →
      get_top_correlations entries = Except.ok []) ∧
    (∀ days : ℤ, generate_summary [] days = Except.ok "No data available.") ∧
    (∀ (entries : List Entry) (m1 m2 : String),
      (∀ e ∈ entries, coercibleB m1 e = true) →
      (∀ e ∈ entries, coercibleB m2 e = true) →
      (∀ a ∈ entries.map (valAt m1), ∀ b ∈ entries.map (valAt m1), a = b) →
      calculate_correlation entries m1 m2 = Except.ok 0) := by
  refine ⟨?_, ?_, ?_, ?_, ?_, ?_, ?_, ?_⟩
  · intro entries h days
    have hnum : ∀ e ∈ entries, metricsNumeric e = true := fun e he => (h e he).2
    refine ⟨?_, ⟨_, identify_flags_eq hnum⟩, get_top_ok hnum,
      generate_summary_ok hnum⟩
    intro m hm
    have hm2 : ∀ e ∈ entries, numericAt m e = true :=
      fun e he => List.all_eq_true.mp (hnum e he) m hm
    refine ⟨⟨_, calculate_average_eq hm2⟩,
      fun w => ⟨_, calculate_rolling_average_eq hm2⟩, ?_⟩
    intro m2 hm2mem
    by_cases hlen : entries.length < 2
    · exact ⟨0, by simp [calculate_correlation, hlen]⟩
    · exact ⟨_, calculate_correlation_eq hlen
        (fun e he => numericAt_coercible (hm2 e he))
        (fun e he => numericAt_coercible
          (List.all_eq_true.mp (hnum e he) m2 hm2mem))⟩
  · intro m
    simp [calculate_average]
  · intro m w
    simp [calculate_rolling_average]
  · intro entries m1 m2 hlen
    simp [calculate_correlation, hlen]
  · simp [identify_flags]
  · intro entries hlen
    simp [get_top_correlations, hlen]
  · intro days
    simp [generate_summary]
  · intro entries m1 m2 hc1 hc2 hall
    by_cases hlen : entries.length < 2
    · simp [calculate_correlation, hlen]
    · rw [calculate_correlation_eq hlen hc1 hc2,
        corrOfVals_left_const hall]

/-- Claim C4 (witness): the amended totality applied to a concrete numeric
store, and the zero-variance case on a constant-valued metric. -/
theorem C4_witness :
    (∃ q, calculate_average [baseEntry, e5Entry] "sleep_hours" = Except.ok q) ∧
    (∃ s, generate_summary [baseEntry, e5Entry] 30 = Except.ok s) ∧
    calculate_correlation [s8Entry, s8Entry] "sleep_hours" "focus" =
      Except.ok 0 :=
  ⟨((C4_analytics_total.1 [baseEntry, e5Entry] (by decide) 30).1 "sleep_hours"
      (by decide)).1,
    (C4_analytics_total.1 [baseEntry, e5Entry] (by decide) 30).2.2.2,
    C4_analytics_total.2.2.2.2.2.2.2 [s8Entry, s8Entry] "sleep_hours" "focus"
      (by decide) (by decide) (by decide)⟩

/- ### Claim C5 -/

lemma sum_sq_eq_zero_forall {μ : ℚ} {vs : List ℚ}
    (h : (vs.map (fun v => (v - μ) ^ 2)).sum = 0) : ∀ v ∈ vs, v = μ := by
  intro v hv
  by_contra hne
  exact absurd h (ne_of_gt (sum_sq_pos hv hne))

/-- Claim C5: on at least 2 entries whose metric values float()-coerce, the
self-correlation of a metric is exactly 1 when the metric takes two
distinct values, and exactly 0 (never 1, and there is no NaN in this real
model) when all its values are equal (zero variance). -/
theorem C5_self_correlation :
    ∀ (entries : List Entry) (m : String), 2 ≤ entries.length →
      (∀ e ∈ entries, coercibleB m e = true) →
      ((∃ e1 ∈ entries, ∃ e2 ∈ entries, valAt m e1 ≠ valAt m e2) →
        calculate_correlation entries m m = Except.ok 1) ∧
      ((∀ e1 ∈ entries, ∀ e2 ∈ entries, valAt m e1 = valAt m e2) →
        calculate_correlation entries m m = Except.ok 0) := by
  intro entries m hlen hc
  have hlen2 : ¬ entries.length < 2 := not_lt.mpr hlen
  rw [calculate_correlation_eq hlen2 hc hc]
  constructor
  · rintro ⟨e1, he1, e2, he2, hne⟩
    rw [corrOfVals_self_one]
    intro hS
    have hall := sum_sq_eq_zero_forall hS
    have h1 := hall (valAt m e1) (List.mem_map_of_mem _ he1)
    have h2 := hall (valAt m e2) (List.mem_map_of_mem _ he2)
    exact hne (h1.trans h2.symm)
  · intro hall
    rw [corrOfVals_left_const]
    intro a ha b hb
    obtain ⟨ea, hea, rfl⟩ := List.mem_map.mp ha
    obtain ⟨eb, heb, rfl⟩ := List.mem_map.mp hb
    exact hall ea hea eb heb

/-- Claim C5 (witness): self-correlation 1 on a two-valued sample and 0 on a
constant sample. -/
theorem C5_witness :
    calculate_correlation [baseEntry, e5Entry] "sleep_hours" "sleep_hours" =
      Except.ok 1 ∧
    calculate_correlation [s8Entry, s8Entry] "sleep_hours" "sleep_hours" =
      Except.ok 0 :=
  ⟨(C5_self_correlation [baseEntry, e5Entry] "sleep_hours" (by decide)
      (by decide)).1 (by decide),
    (C5_self_correlation [s8Entry, s8Entry] "sleep_hours" (by decide)
      (by decide)).2 (by decide)⟩

/- ### Claim C6 -/

/-- Claim C6: get_top_correlations returns at most 6 triples — exactly the
unordered pairs of the four metrics (in some order) when there are at least
2 entries — sorted so that a later triple has strictly smaller absolute
correlation or an equal absolute correlation and a later position in the
fixed enumeration order sleep/focus, sleep/mood, sleep/work, focus/mood,
focus/work, mood/work; and fewer than 2 entries yield the empty list. -/
theorem C6_top_correlations :
    (∀ entries : List Entry, (∀ e ∈ entries, metricsNumeric e = true) →
      ∃ l, get_top_correlations entries = Except.ok l ∧ l.length ≤ 6 ∧
        List.Pairwise corrLex l ∧
        (2 ≤ entries.length →
          (l.map (fun t => (t.1, t.2.1))).Perm (pairsOf analyticsMetrics))) ∧
    (∀ entries : List Entry, entries.length < 2 →
      get_top_correlations entries = Except.ok []) := by
  constructor
  · intro entries h
    by_cases hlen : entries.length < 2
    · refine ⟨[], by simp [get_top_correlations, hlen], by simp,
        List.Pairwise.nil, ?_⟩
      intro h2
      omega
    · refine ⟨sortCorrDesc ((pairsOf analyticsMetrics).map (corrValAt entries)),
        get_top_eq hlen (fun m hm e he => metricsNumeric_coercible (h e he) m hm),
        ?_, sortCorrDesc_pairwise (input_pidx entries), ?_⟩
      · rw [(sortCorrDesc_perm _).length_eq, List.length_map]
        decide
      · intro _
        refine ((sortCorrDesc_perm _).map _).trans ?_
        rw [List.map_map]
        have hcomp :
            ((fun t : String × String × ℝ => (t.1, t.2.1)) ∘ corrValAt entries) =
              id := by
          funext p
          simp [corrValAt]
        rw [hcomp, List.map_id]
  · intro entries hlen
    simp [get_top_correlations, hlen]

/-- Claim C6 (witness): the order properties on a concrete numeric store,
and the short-input case. -/
theorem C6_witness :
    (∃ l, get_top_correlations [baseEntry, e5Entry] = Except.ok l ∧
      l.length ≤ 6 ∧ List.Pairwise corrLex l ∧
      (2 ≤ ([baseEntry, e5Entry] : List Entry).length →
        (l.map (fun t => (t.1, t.2.1))).Perm (pairsOf analyticsMetrics))) ∧
    get_top_correlations [] = Except.ok [] :=
  ⟨C6_top_correlations.1 [baseEntry, e5Entry] (by decide),
    C6_top_correlations.2 [] (by decide)⟩

/- ### Claim C7 -/

/-- Claim C7: identify_flags computes exactly the four fixed conditions in
the fixed output order with count/total and one-decimal percentage, emitting
a warning only for non-zero counts (the specFlags refinement); an all-8s
entry set yields no flags; and a set of 4 entries with exactly one low-sleep
entry yields the flag "WARNING: Low sleep (<6h): 1/4 days (25.0%)", which
contains "1/4" and "25.0%". -/
theorem C7_identify_flags :
    (∀ entries : List Entry, (∀ e ∈ entries, metricsNumeric e = true) →
      identify_flags entries = Except.ok (specFlags entries)) ∧
    (∀ entries : List Entry,
      (∀ e ∈ entries, metricsNumeric e = true ∧
        valNumAt "sleep_hours" e = 8 ∧ valNumAt "focus" e = 8 ∧
        valNumAt "mood" e = 8 ∧ valNumAt "work_hours" e = 8) →
      identify_flags entries = Except.ok []) ∧
    (∀ entries : List Entry, (∀ e ∈ entries, metricsNumeric e = true) →
      entries.length = 4 →
      entries.countP (fun e => decide (valNumAt "sleep_hours" e < 6)) = 1 →
      ∃ fl, identify_flags entries = Except.ok fl ∧
        "WARNING: Low sleep (<6h): 1/4 days (25.0%)" ∈ fl ∧
        (∃ a b, "WARNING: Low sleep (<6h): 1/4 days (25.0%)" =
          a ++ "1/4" ++ b) ∧
        (∃ c d, "WARNING: Low sleep (<6h): 1/4 days (25.0%)" =
          c ++ "25.0%" ++ d)) := by
  refine ⟨fun entries h => identify_flags_eq h, ?_, ?_⟩
  · intro entries h
    rw [identify_flags_eq (fun e he => (h e he).1)]
    have hc1 : entries.countP (fun e => decide (valNumAt "sleep_hours" e < 6))
        = 0 := by
      rw [List.countP_eq_zero]
      intro e he
      simp only [decide_eq_true_eq]
      rw [(h e he).2.1]
      norm_num
    have hc2 : entries.countP (fun e => decide (valNumAt "focus" e < 4)) = 0 := by
      rw [List.countP_eq_zero]
      intro e he
      simp only [decide_eq_true_eq]
      rw [(h e he).2.2.1]
      norm_num
    have hc3 : entries.countP (fun e => decide (valNumAt "mood" e < 4)) = 0 := by
      rw [List.countP_eq_zero]
      intro e he
      simp only [decide_eq_true_eq]
      rw [(h e he).2.2.2.1]
      norm_num
    have hc4 : entries.countP (fun e => decide (10 < valNumAt "work_hours" e))
        = 0 := by
      rw [List.countP_eq_zero]
      intro e he
      simp only [decide_eq_true_eq]
      rw [(h e he).2.2.2.2]
      norm_num
    simp [specFlags, hc1, hc2, hc3, hc4]
  · intro entries h hlen hcount
    refine ⟨specFlags entries, identify_flags_eq h, ?_, ?_, ?_⟩
    · have hmsg : sleepFlagMsg 1 4 =
          "WARNING: Low sleep (<6h): 1/4 days (25.0%)" := by
        have hp : pctOf 1 4 = 25 := by norm_num [pctOf]
        simp only [sleepFlagMsg, hp]
        decide
      apply List.mem_filterMap.mpr
      refine ⟨(entries.countP (fun e => decide (valNumAt "sleep_hours" e < 6)),
        sleepFlagMsg), by simp [specFlags], ?_⟩
      rw [hcount, hlen]
      simp [hmsg]
    · exact ⟨"WARNING: Low sleep (<6h): ", " days (25.0%)", by decide⟩
    · exact ⟨"WARNING: Low sleep (<6h): 1/4 days (", ")", by decide⟩

/-- Claim C7 (witness): the three conjuncts at concrete entry sets. -/
theorem C7_witness :
    identify_flags [s8Entry] = Except.ok (specFlags [s8Entry]) ∧
    identify_flags [s8Entry, s8Entry] = Except.ok [] ∧
    (∃ fl, identify_flags [s5Entry, s8Entry, s8Entry, s8Entry] =
        Except.ok fl ∧
      "WARNING: Low sleep (<6h): 1/4 days (25.0%)" ∈ fl ∧
      (∃ a b, "WARNING: Low sleep (<6h): 1/4 days (25.0%)" =
        a ++ "1/4" ++ b) ∧
      (∃ c d, "WARNING: Low sleep (<6h): 1/4 days (25.0%)" =
        c ++ "25.0%" ++ d)) :=
  ⟨C7_identify_flags.1 [s8Entry] (by decide),
    C7_identify_flags.2.1 [s8Entry, s8Entry] (by decide),
    C7_identify_flags.2.2 [s5Entry, s8Entry, s8Entry, s8Entry] (by decide)
      (by decide) (by decide)⟩

/- ### Claim C8 -/

/-- Claim C8 (counterexample): c8Entry fails at the focus check — the first
failing check in the priority order — but the returned message is the
generic invalid-data-type text, which does not name the field focus even
case-insensitively. -/
theorem C8_counterexample :
    validate_entry c8Entry =
      VRes.err "Invalid data type: invalid literal for int() with base 10: abc" ∧
    mentionsField
      "Invalid data type: invalid literal for int() with base 10: abc"
      "focus" = false := by
  decide

/-- Claim C8 (amended): validate_entry is exactly the first failing check of
the spec priority order — missing required field, malformed date, malformed
timestamp, then sleep_hours, focus, mood, work_hours coerce-and-range, then
social — stopping at the first failure; the missing-field, format, range
and social messages name the offending field (case-insensitively), while a
value the numeric coercion rejects yields a generic invalid-data-type
message that does not name the field, and a non-string date raises an
uncaught TypeError instead of returning an error. -/
theorem C8_first_failing_order :
    (∀ e, validate_entry e = specOrderedValidate e) ∧
    namedChecksNameField = true :=
  ⟨validate_eq_spec, by decide⟩

/- ### Claim C9 -/

/-- Claim C9: save_data opens the real data file with truncation and then
writes — there is no temporary file and no rename.  The full content does
land when the trace completes, but the trace is not crash-atomic: after the
truncate prefix the file holds neither the old nor the new content. -/
theorem C9_save_not_atomic :
    runFs "old-data" (save_data_ops "new-data") = "new-data" ∧
    ¬ CrashAtomic (save_data_ops "new-data") "old-data" "new-data" := by
  constructor
  · rfl
  · intro h
    have hpfx : [FsOp.truncate] <+: save_data_ops "new-data" :=
      ⟨[FsOp.write "new-data"], rfl⟩
    rcases h [FsOp.truncate] hpfx with h1 | h1 <;> exact absurd h1 (by decide)

/- ### Claim C10 -/

/-- Claim C10: validation coercions are discarded — add_entry persists the
caller's exact entry: on success the new collection is a permutation of the
old plus the original entry, which it contains unchanged; concretely,
c10Entry with sleep_hours as the string "8" and focus as the non-integer
5.5 passes validation and is stored with exactly those representations. -/
theorem C10_stored_as_given :
    (∀ (s : List Entry) (e : Entry) (s2 : List Entry),
      add_entry s e = (VRes.ok, s2) → e ∈ s2 ∧ s2.Perm (s ++ [e])) ∧
    (validate_entry c10Entry = VRes.ok ∧
      add_entry [] c10Entry = (VRes.ok, [c10Entry]) ∧
      c10Entry.sleep_hours = some (PyVal.VStr "8") ∧
      c10Entry.focus = some (PyVal.VFloat (mkRat 11 2))) := by
  constructor
  · intro s e s2 h
    obtain ⟨_, _, rfl⟩ := add_entry_ok_dest h
    exact ⟨(sortDesc_perm _).symm.subset
        (List.mem_append_right _ (List.mem_singleton_self _)),
      sortDesc_perm _⟩
  · exact ⟨by decide, by decide, by decide, by decide⟩

/-- Claim C10 (witness): the frame property applied at the concrete store. -/
theorem C10_witness :
    c10Entry ∈ [c10Entry] ∧ ([c10Entry] : List Entry).Perm ([] ++ [c10Entry]) :=
  C10_stored_as_given.1 [] c10Entry [c10Entry] (by decide)
